import Mathlib

/-!
Shallow embedding of the `tqtemplate` Go template engine
(repository `mevdschee/tqtemplate`), used to check the claims of
the natural-language specification against the code.

Conventions of the embedding:

* Go `any` values that flow through the engine are modelled by the
  inductive type `TQ.Val`.  Go `float64` is modelled by the exact
  rationals `ℚ`; none of the checked claims depends on floating-point
  rounding (every float arithmetic that appears in a theorem below is
  exact in `float64` as well).  Go `int` is modelled by unbounded `Int`
  (no claim involves integer overflow).
* Go strings are ASCII in every input appearing in the claims; byte
  positions and char positions coincide, so Go's byte-wise scanners are
  modelled char-wise over `List Char`.
* Go maps (`map[string]any`, `map[string]TreeNode`, the filter registry)
  are modelled as association lists with first-match lookup and
  replace-or-append insertion; Go's in-place map assignment is modelled
  by `mapInsert` returning the updated map.  Go's randomized map
  iteration order is modelled by the list order (no checked claim
  depends on the iteration order).
* Fallible Go calls `(T, error)` become `Except String T`, carrying the
  error message.
* The renderer of the source recurses through the template loader on
  `include`/`extends` (the Go code has no cycle protection and can
  diverge); the embedding adds an explicit `fuel` parameter that is
  spent only when an `include` or a block override is expanded, after
  all the error checks of the corresponding source function, so that
  theorems about the error branches are independent of the fuel.
-/

namespace TQ

attribute [local semireducible] Rat.add Rat.mul Rat.sub Rat.inv

/-- Model of the Go `any` values handled by the engine: `nil`, `bool`,
`int`, `float64` (exact rationals), `string`, `[]any`, `map[string]any`,
`RawValue` (tqtemplate.go, a string marked as not-to-escape) and the
`*undefinedSentinel` of tests.go. -/
inductive Val where
  | vnil : Val
  | vbool : Bool → Val
  | vint : Int → Val
  | vfloat : ℚ → Val
  | vstr : String → Val
  | vlist : List Val → Val
  | vmap : List (String × Val) → Val
  | vraw : String → Val
  | vundef : Val

/-- A data context `map[string]any`, as an association list. -/
abbrev ValMap := List (String × Val)

/-- First-match lookup, the model of reading a Go map. -/
def mapLookup (m : List (String × α)) (k : String) : Option α :=
  match m with
  | [] => none
  | (k', v) :: rest => if k' = k then some v else mapLookup rest k

/-- Replace-or-append insertion, the model of Go's `m[k] = v`. -/
def mapInsert (m : List (String × α)) (k : String) (v : α) : List (String × α) :=
  match m with
  | [] => [(k, v)]
  | (k', v') :: rest => if k' = k then (k, v) :: rest else (k', v') :: mapInsert rest k v

/-- Model of `unicode.IsSpace` on the ASCII range (helpers and the
tokenizers only ever meet ASCII whitespace in the checked claims). -/
def goIsSpace (c : Char) : Bool :=
  c = ' ' ∨ c = '\t' ∨ c = '\n' ∨ c = '\x0b' ∨ c = '\x0c' ∨ c = '\r'

/-- Model of `unicode.IsLetter` on the ASCII range. -/
def goIsLetter (c : Char) : Bool := c.isAlpha

/-- Model of `unicode.IsDigit` on the ASCII range. -/
def goIsDigit (c : Char) : Bool := c.isDigit

/-- Model of `strings.TrimSpace` (ASCII whitespace). -/
def trimChars (cs : List Char) : List Char :=
  ((cs.dropWhile goIsSpace).reverse.dropWhile goIsSpace).reverse

/-- `strings.TrimSpace` on strings. -/
def trimString (s : String) : String := String.mk (trimChars s.data)

/-- `strings.HasPrefix`, char-list based so that the kernel can
evaluate it. -/
def strStartsWith (s pre : String) : Bool := pre.data.isPrefixOf s.data

/-- `strings.HasSuffix`, char-list based. -/
def strEndsWith (s suf : String) : Bool := suf.data.isSuffixOf s.data

/-- `strings.ContainsRune` / byte membership, char-list based. -/
def strContainsChar (s : String) (c : Char) : Bool := s.data.contains c

/-- One scan step bound makes the fuel (the input length) sufficient:
`strings.ReplaceAll` on char lists. -/
def replaceAllL (pat rep : List Char) : Nat → List Char → List Char
  | _, [] => []
  | 0, cs => cs
  | fuel + 1, c :: rest =>
    if pat ≠ [] ∧ pat.isPrefixOf (c :: rest) then
      rep ++ replaceAllL pat rep fuel ((c :: rest).drop pat.length)
    else c :: replaceAllL pat rep fuel rest

/-- `strings.ReplaceAll` (the engine never calls it with an empty
pattern, on which Go would loop inserting). -/
def replaceAll (s old new : String) : String :=
  String.mk (replaceAllL old.data new.data s.data.length s.data)

/-- `strings.Split` on a single-character separator (the engine only
splits the for-header variables on `","`), char-list based. -/
def splitOnCharL (sep : Char) : List Char → List Char → List (List Char)
  | [], token => [token.reverse]
  | c :: rest, token =>
    if c = sep then token.reverse :: splitOnCharL sep rest []
    else splitOnCharL sep rest (c :: token)

/-- `strings.Split(s, sep)` for a one-character separator. -/
def strSplitOnChar (s : String) (sep : Char) : List String :=
  (splitOnCharL sep s.data []).map String.mk

/-- Digits of a decimal `Nat` literal, most significant first. -/
def digitsToNat (cs : List Char) : Nat :=
  cs.foldl (fun acc c => 10 * acc + (c.toNat - 48)) 0

/-- Model of `strconv.Atoi` with the error ignored (`val, _ := strconv.Atoi`):
a number-token of the expression tokenizer is a run of digits, anything else
yields the zero value.  (Go's `int` overflow, which would also yield 0 through
the ignored error, is outside this unbounded-integer model.) -/
def goAtoi (s : String) : Int :=
  if s.data ≠ [] ∧ s.data.all goIsDigit then (digitsToNat s.data : Int) else 0

/-- Model of `strconv.ParseFloat` on the decimal forms
`[+-]?digits[.digits][eE[+-]digits]` that can reach it in this engine.
Exotic accepted forms of Go (hex floats, `Inf`, `NaN`, digit
underscores) are outside the model and parse as `none` here. -/
def parseGoFloat (s : String) : Option ℚ :=
  let cs := s.data
  let (sign, cs) : ℚ × List Char :=
    match cs with
    | '+' :: rest => (1, rest)
    | '-' :: rest => (-1, rest)
    | rest => (1, rest)
  let intPart := cs.takeWhile goIsDigit
  let cs := cs.dropWhile goIsDigit
  let (fracPart, cs) : List Char × List Char :=
    match cs with
    | '.' :: rest => (rest.takeWhile goIsDigit, rest.dropWhile goIsDigit)
    | rest => ([], rest)
  if intPart = [] ∧ fracPart = [] then none
  else
    let mantissa : ℚ := (digitsToNat intPart : ℚ) +
      (digitsToNat fracPart : ℚ) / ((10 : ℚ) ^ fracPart.length)
    match cs with
    | [] => some (sign * mantissa)
    | e :: rest =>
      if e = 'e' ∨ e = 'E' then
        let (esign, rest) : Bool × List Char :=
          match rest with
          | '+' :: r => (false, r)
          | '-' :: r => (true, r)
          | r => (false, r)
        if rest ≠ [] ∧ rest.all goIsDigit then
          let ex : ℚ := (10 : ℚ) ^ (digitsToNat rest)
          some (sign * mantissa * (if esign then ex⁻¹ else ex))
        else none
      else none

/-- Left-pad a digit list with zeros to the given length. -/
def padZeros (cs : List Char) (n : Nat) : List Char :=
  List.replicate (n - cs.length) '0' ++ cs

/-- Model of `strconv.FormatFloat(v, 'f', -1, 64)` (toString's float case)
on the exact-rational float model: an integer prints with no point, a
rational with a terminating decimal expansion prints its shortest
expansion.  A non-terminating rational (which a real `float64` cannot
hold; it can arise in this model from exact division) gets a fallback
form never exercised by the claims. -/
def ratToString (q : ℚ) : String :=
  if q.den = 1 then toString q.num
  else
    match (List.range 400).find? (fun k => q.den ∣ 10 ^ (k + 1)) with
    | some k =>
      let k := k + 1
      let scaled : Int := q.num * ((10 : ℤ) ^ k) / (q.den : ℤ)
      let sign := if q.num < 0 then "-" else ""
      let ds := padZeros (Nat.toDigits 10 scaled.natAbs) (k + 1)
      sign ++ String.mk (ds.take (ds.length - k)) ++ "." ++ String.mk (ds.drop (ds.length - k))
    | none => "~rat " ++ toString q.num ++ "/" ++ toString q.den

/-- Decimal rendering of a Go `int`, defined before `TQ.toString`
shadows the global name. -/
def intToString (n : Int) : String := toString n

/-- Model of `toBool` (helpers.go): bools as themselves, numbers by
non-zeroness, strings by non-emptiness, `nil` false, everything else
(slices, maps, `RawValue`, the undefined sentinel — Go's `default`
branch) true. -/
def toBool (value : Val) : Bool :=
  match value with
  | .vbool b => b
  | .vint n => n ≠ 0
  | .vfloat q => q ≠ 0
  | .vstr s => s ≠ ""
  | .vnil => false
  | _ => true

/-- Model of `toNumber` (helpers.go): `(float64, bool)` becomes
`Option ℚ`; ints and floats convert, strings go through `ParseFloat`,
everything else is not a number. -/
def toNumber (value : Val) : Option ℚ :=
  match value with
  | .vint n => some (n : ℚ)
  | .vfloat q => some q
  | .vstr s => parseGoFloat s
  | _ => none

/-- Model of Go's `fmt.Sprintf("%v", v)` for the `default` branch of
`toString` — only lists, maps, `RawValue` and the sentinel reach it.
The rendering of these composite forms is an approximation of Go's
`%v` never exercised by the claims. -/
def sprintfV (value : Val) : String :=
  match value with
  | .vraw s => "\x7b" ++ s ++ "\x7d"
  | .vundef => "&\x7b\x7d"
  | .vlist _ => "[...]"
  | .vmap _ => "map[...]"
  | .vstr s => s
  | .vint n => intToString n
  | .vfloat q => ratToString q
  | .vbool b => if b then "true" else "false"
  | .vnil => "<nil>"

/-- Model of `toString` (helpers.go). -/
def toString (value : Val) : String :=
  match value with
  | .vstr s => s
  | .vint n => intToString n
  | .vfloat q => ratToString q
  | .vbool b => if b then "1" else ""
  | .vnil => ""
  | v => sprintfV v

/-- Model of `compare` (helpers.go): numeric comparison when both
operands convert, else byte-wise (here char-wise, ASCII) string
comparison; returns -1, 0 or 1. -/
def compare (left right : Val) : Int :=
  match toNumber left, toNumber right with
  | some l, some r => if l < r then -1 else if l > r then 1 else 0
  | _, _ =>
    let l := toString left
    let r := toString right
    if l < r then -1 else if l > r then 1 else 0

/-- Go `int(f)` on a `float64`: truncation toward zero, on the rational
model. -/
def goTrunc (q : ℚ) : Int := q.num.tdiv (q.den : Int)

/-- Model of `html.EscapeString`: escapes `&`, `'`, `<`, `>`, `"`. -/
def escapeString (s : String) : String :=
  String.mk (s.data.flatMap (fun c =>
    if c = '&' then "&amp;".data
    else if c = '\'' then "&#39;".data
    else if c = '<' then "&lt;".data
    else if c = '>' then "&gt;".data
    else if c = '"' then "&#34;".data
    else [c]))

/-! ## Expression engine (src/tqtemplate.go lines 17-344)

The expression tokenizer, the Shunting-Yard conversion to Reverse
Polish Notation and the stack evaluator.  The byte-wise Go scanner is
modelled char-wise (ASCII). -/

/-- `ExpressionToken` (src/tqtemplate.go): `Type` is one of
`"number"`, `"string"`, `"identifier"`, `"operator"`, `"parenthesis"`. -/
structure ExpressionToken where
  type : String
  value : String
deriving DecidableEq

/-- The operator table (src/tqtemplate.go lines 33-50):
lexeme to (precedence, associativity); `none` models absence from the
Go map. -/
def operators (s : String) : Option (Nat × String) :=
  match s with
  | "or" => some (1, "left")
  | "||" => some (1, "left")
  | "and" => some (2, "left")
  | "&&" => some (2, "left")
  | "==" => some (3, "left")
  | "!=" => some (3, "left")
  | "<" => some (4, "left")
  | ">" => some (4, "left")
  | "<=" => some (4, "left")
  | ">=" => some (4, "left")
  | "+" => some (5, "left")
  | "-" => some (5, "left")
  | "*" => some (6, "left")
  | "/" => some (6, "left")
  | "%" => some (6, "left")
  | "not" => some (7, "right")
  | _ => none

/-- Go's map zero value for a missing key: `operators[o].precedence`. -/
def opPrec (s : String) : Nat := ((operators s).map Prod.fst).getD 0

/-- Go's map zero value for a missing key: `operators[o].associativity`. -/
def opAssoc (s : String) : String := ((operators s).map Prod.snd).getD ""

/-- The quote-and-escape scan of a double-quoted string literal inside
an expression (src/tqtemplate.go lines 127-147): returns the unescaped
content and the remaining input after the closing quote (or input end). -/
def scanStringLit : List Char → Bool → List Char × List Char
  | [], _ => ([], [])
  | c :: rest, escaped =>
    if escaped then
      let (s, r) := scanStringLit rest false
      (c :: s, r)
    else if c = '\\' then scanStringLit rest true
    else if c = '"' then ([], rest)
    else
      let (s, r) := scanStringLit rest false
      (c :: s, r)

theorem scanStringLit_length_le (cs : List Char) (e : Bool) :
    (scanStringLit cs e).2.length ≤ cs.length := by
  induction cs generalizing e with
  | nil => simp [scanStringLit]
  | cons c rest ih =>
    simp only [scanStringLit]
    split
    · have := ih false
      simp only [List.length_cons]
      omega
    · split
      · have := ih true
        simp only [List.length_cons]
        omega
      · split
        · simp
        · have := ih false
          simp only [List.length_cons]
          omega

theorem dropWhile_length_le (p : Char → Bool) (cs : List Char) :
    (cs.dropWhile p).length ≤ cs.length := by
  induction cs with
  | nil => simp
  | cons c rest ih =>
    by_cases h : p c <;> simp [List.dropWhile, h] <;> omega

/-- The expression tokenizer (`Expression.tokenize`,
src/tqtemplate.go lines 60-165): whitespace skipped; parentheses;
letter runs that form a word operator; two-char then one-char
operators; digit/dot runs as numbers; quoted strings; identifier/path
runs; unknown characters dropped.  The scan consumes at least one
character per step; the structural `fuel` argument (instantiated with
the input length, which the step bound makes sufficient) only makes
the recursion structural, so that the kernel can evaluate it. -/
def exprTokenizeF : Nat → List Char → List ExpressionToken
  | 0, _ => []
  | fuel + 1, cs =>
    match cs with
    | [] => []
    | c :: rest =>
      if goIsSpace c then exprTokenizeF fuel rest
      else if c = '(' ∨ c = ')' then
        ⟨"parenthesis", String.mk [c]⟩ :: exprTokenizeF fuel rest
      else
        if goIsLetter c ∧ (operators (String.mk (c :: rest.takeWhile goIsLetter))).isSome then
          ⟨"operator", String.mk (c :: rest.takeWhile goIsLetter)⟩ ::
            exprTokenizeF fuel (rest.dropWhile goIsLetter)
        else if rest.head?.elim false (fun c2 => (operators (String.mk [c, c2])).isSome) then
          ⟨"operator", String.mk [c, rest.headD ' ']⟩ :: exprTokenizeF fuel rest.tail
        else if (operators (String.mk [c])).isSome then
          ⟨"operator", String.mk [c]⟩ :: exprTokenizeF fuel rest
        else if goIsDigit c ∨ (c = '.' ∧ (rest.head?.elim false goIsDigit)) then
          ⟨"number", String.mk (c :: rest.takeWhile (fun x => goIsDigit x ∨ x = '.'))⟩ ::
            exprTokenizeF fuel (rest.dropWhile (fun x => goIsDigit x ∨ x = '.'))
        else if c = '"' then
          ⟨"string", String.mk (scanStringLit rest false).1⟩ ::
            exprTokenizeF fuel (scanStringLit rest false).2
        else if goIsLetter c ∨ c = '_' then
          ⟨"identifier",
            String.mk (c :: rest.takeWhile (fun x => goIsLetter x ∨ goIsDigit x ∨ x = '_' ∨ x = '.'))⟩ ::
            exprTokenizeF fuel (rest.dropWhile (fun x => goIsLetter x ∨ goIsDigit x ∨ x = '_' ∨ x = '.'))
        else exprTokenizeF fuel rest

/-- The expression tokenizer at its sufficient fuel. -/
def exprTokenize (cs : List Char) : List ExpressionToken := exprTokenizeF cs.length cs

/-- `Expression` (src/tqtemplate.go): the token list of a parsed
expression. -/
structure Expression where
  tokens : List ExpressionToken

/-- `NewExpression` (src/tqtemplate.go lines 53-57). -/
def NewExpression (expr : String) : Expression := ⟨exprTokenize (trimString expr).data⟩

/-- The inner while-loop of the Shunting-Yard operator case
(src/tqtemplate.go lines 199-219): pop operators of sufficient
precedence off the stack; returns (popped run in pop order, remaining
stack). -/
def popWhileHigher (o1 : String) : List ExpressionToken →
    List ExpressionToken × List ExpressionToken
  | [] => ([], [])
  | top :: stackRest =>
    if top.type = "parenthesis" then ([], top :: stackRest)
    else if top.type ≠ "operator" then ([], top :: stackRest)
    else
      if (opAssoc o1 = "left" ∧ opPrec o1 ≤ opPrec top.value) ∨
         (opAssoc o1 = "right" ∧ opPrec o1 < opPrec top.value) then
        let (out, st) := popWhileHigher o1 stackRest
        (top :: out, st)
      else ([], top :: stackRest)

/-- The inner while-loop of the `)` case (src/tqtemplate.go lines
186-193): pop until a `(` is on top; returns (popped run, remaining
stack, the `(` still on top when found). -/
def popUntilLeftParen : List ExpressionToken →
    List ExpressionToken × List ExpressionToken
  | [] => ([], [])
  | top :: stackRest =>
    if top.type = "parenthesis" ∧ top.value = "(" then ([], top :: stackRest)
    else
      let (out, st) := popUntilLeftParen stackRest
      (top :: out, st)

/-- `toReversePolishNotation` (src/tqtemplate.go lines 174-231),
with output and operator stack as explicit accumulators; the stack top
is the list head.  A token that is neither operand, parenthesis nor
operator falls through all branches in Go and is dropped. -/
def toRPNCore : List ExpressionToken → List ExpressionToken →
    List ExpressionToken → List ExpressionToken
  | [], output, stack => output ++ stack
  | tok :: toks, output, stack =>
    if tok.type = "number" ∨ tok.type = "string" ∨ tok.type = "identifier" then
      toRPNCore toks (output ++ [tok]) stack
    else if tok.type = "parenthesis" ∧ tok.value = "(" then
      toRPNCore toks output (tok :: stack)
    else if tok.type = "parenthesis" ∧ tok.value = ")" then
      let (popped, st) := popUntilLeftParen stack
      toRPNCore toks (output ++ popped) (st.drop 1)
    else if tok.type = "operator" then
      let (popped, st) := popWhileHigher tok.value stack
      toRPNCore toks (output ++ popped) (tok :: st)
    else toRPNCore toks output stack

/-- `Expression.toReversePolishNotation`. -/
def toReversePolishNotation (e : Expression) : List ExpressionToken :=
  toRPNCore e.tokens [] []

/-- `applyOperator` (src/tqtemplate.go lines 293-344).  `+` is numeric
sum when both operands convert with `toNumber`, else string
concatenation; `-` and `*` coerce non-numbers to 0; `/` and `%` report
a zero (or non-numeric) divisor as an error.  (`%` on a non-zero
fractional divisor that truncates to integer zero would panic in Go;
the total model returns `Int.tmod _ 0`, a case no claim touches.) -/
def applyOperator (op : String) (left right : Val) : Except String Val :=
  match op with
  | "or" => .ok (.vbool (toBool left ∨ toBool right))
  | "||" => .ok (.vbool (toBool left ∨ toBool right))
  | "and" => .ok (.vbool (toBool left ∧ toBool right))
  | "&&" => .ok (.vbool (toBool left ∧ toBool right))
  | "==" => .ok (.vbool (compare left right = 0))
  | "!=" => .ok (.vbool (compare left right ≠ 0))
  | "<" => .ok (.vbool (compare left right < 0))
  | ">" => .ok (.vbool (compare left right > 0))
  | "<=" => .ok (.vbool (compare left right ≤ 0))
  | ">=" => .ok (.vbool (compare left right ≥ 0))
  | "+" =>
    match toNumber left, toNumber right with
    | some l, some r => .ok (.vfloat (l + r))
    | _, _ => .ok (.vstr (toString left ++ toString right))
  | "-" => .ok (.vfloat ((toNumber left).getD 0 - (toNumber right).getD 0))
  | "*" => .ok (.vfloat ((toNumber left).getD 0 * (toNumber right).getD 0))
  | "/" =>
    match toNumber right with
    | none => .error "division by zero"
    | some r =>
      if r = 0 then .error "division by zero"
      else .ok (.vfloat ((toNumber left).getD 0 / r))
  | "%" =>
    match toNumber right with
    | none => .error "modulo by zero"
    | some r =>
      if r = 0 then .error "modulo by zero"
      else .ok (.vint (Int.tmod (goTrunc ((toNumber left).getD 0)) (goTrunc r)))
  | _ => .error ("unknown operator: " ++ op)

/-- One operand/operator step list of `evaluateRPN`
(src/tqtemplate.go lines 234-290): fold over the RPN tokens with the
value stack (top at head).  Tokens that are neither operands nor
operators are skipped (Go's if/else-if chain has no other branch). -/
def evalRPNCore (resolve : String → ValMap → Except String Val) (data : ValMap) :
    List ExpressionToken → List Val → Except String (List Val)
  | [], stack => .ok stack
  | tok :: toks, stack =>
    if tok.type = "number" ∨ tok.type = "string" ∨ tok.type = "identifier" then
      if tok.type = "number" then
        if strContainsChar tok.value '.' then
          evalRPNCore resolve data toks (.vfloat ((parseGoFloat tok.value).getD 0) :: stack)
        else
          evalRPNCore resolve data toks (.vint (goAtoi tok.value) :: stack)
      else if tok.type = "string" then
        evalRPNCore resolve data toks (.vstr tok.value :: stack)
      else
        match resolve tok.value data with
        | .error e => .error e
        | .ok v => evalRPNCore resolve data toks (v :: stack)
    else if tok.type = "operator" then
      if tok.value = "not" then
        match stack with
        | [] => .error "not enough operands for 'not'"
        | operand :: rest => evalRPNCore resolve data toks (.vbool (¬toBool operand) :: rest)
      else
        match stack with
        | right :: left :: rest =>
          match applyOperator tok.value left right with
          | .error e => .error e
          | .ok result => evalRPNCore resolve data toks (result :: rest)
        | _ => .error ("not enough operands for '" ++ tok.value ++ "'")
    else evalRPNCore resolve data toks stack

/-- `evaluateRPN`'s final check (src/tqtemplate.go lines 285-289). -/
def evaluateRPN (resolve : String → ValMap → Except String Val) (data : ValMap)
    (rpn : List ExpressionToken) : Except String Val :=
  match evalRPNCore resolve data rpn [] with
  | .error e => .error e
  | .ok [v] => .ok v
  | .ok _ => .error "malformed expression"

/-- `Expression.Evaluate` (src/tqtemplate.go lines 168-171). -/
def Evaluate (e : Expression) (data : ValMap)
    (resolve : String → ValMap → Except String Val) : Except String Val :=
  evaluateRPN resolve data (toReversePolishNotation e)

/-! ## Quote-aware splitting and path resolution
(src/tqtemplate.go lines 539-587 and render.go lines 337-354) -/

/-- The scan loop of `explodeRespectingQuotes` (src/tqtemplate.go lines
539-587): split on a separator outside double quotes, with
backslash-escape awareness inside quotes, the `||`-preservation
special case for separator `|`, and the `count` cut.  (Go diverges on
an empty separator; the model requires it non-empty in the split
branch — the engine only ever splits on `"|"`, `"."`, `"("`, `","`.)
Every step consumes at least one character; the structural `fuel`
argument (instantiated with the input length) only makes the
recursion structural. -/
def explodeCore (sep : List Char) (count : Nat) :
    Nat → List Char → Bool → Bool → List Char → List (List Char) → List (List Char)
  | _, [], _, _, token, tokens => tokens ++ [token]
  | 0, _, _, _, token, tokens => tokens ++ [token]
  | fuel + 1, c :: rest, quoted, escaped, token, tokens =>
    if ¬quoted then
      if c = '"' then explodeCore sep count fuel rest true escaped (token ++ [c]) tokens
      else if sep ≠ [] ∧ sep.isPrefixOf (c :: rest) then
        if sep = ['|'] ∧ rest.head? = some '|' then
          explodeCore sep count fuel rest.tail quoted escaped (token ++ ['|', '|']) tokens
        else
          let tokens' := tokens ++ [token]
          if count > 0 ∧ tokens'.length = count - 1 then
            tokens' ++ [(c :: rest).drop sep.length]
          else explodeCore sep count fuel ((c :: rest).drop sep.length) quoted escaped [] tokens'
      else explodeCore sep count fuel rest quoted escaped (token ++ [c]) tokens
    else
      if ¬escaped then
        if c = '"' then explodeCore sep count fuel rest false escaped (token ++ [c]) tokens
        else if c = '\\' then explodeCore sep count fuel rest quoted true (token ++ [c]) tokens
        else explodeCore sep count fuel rest quoted escaped (token ++ [c]) tokens
      else explodeCore sep count fuel rest quoted false (token ++ [c]) tokens

/-- `Template.explodeRespectingQuotes` with Go's argument order
`(separator, str, count)` and the `-1 → 0` normalization. -/
def explodeRespectingQuotes (separator str : String) (count : Int) : List String :=
  let c : Nat := if count = -1 then 0 else count.toNat
  (explodeCore separator.data c str.data.length str.data false false [] []).map String.mk

/-- The walk loop of `resolvePath` (render.go lines 337-354). -/
def resolveWalk : List String → Val → Except String Val
  | [], current => .ok current
  | part :: rest, current =>
    match current with
    | .vmap m =>
      match mapLookup m part with
      | some v => resolveWalk rest v
      | none => .error ("path `" ++ part ++ "` not found")
    | _ => .error ("path `" ++ part ++ "` not found")

/-- `Template.resolvePath` (render.go lines 337-354, identical in
src/tqtemplate.go lines 913-930): dot-split the path respecting
quotes and walk nested maps. -/
def resolvePath (path : String) (data : ValMap) : Except String Val :=
  resolveWalk (explodeRespectingQuotes "." path (-1)) (Val.vmap data)

/-! ## Template tokenizer (src/tqtemplate.go lines 392-536)

`tokenize` splits a template into alternating literal and tag tokens,
with the standalone-line whitespace elision for `\x7b% %\x7d` control
tags and `\x7b# #\x7d` comments.  The byte index `i` of the Go scanner
is carried explicitly because the standalone test compares it with the
accumulated literal's length. -/

/-- The comment-closing scan (src/tqtemplate.go lines 423-431): skip
to just past the first `#\x7d`; when no closer exists the Go loop
stops at the final byte, which the outer loop then re-reads — the
returned suffix models `commentEnd`. -/
def findCommentEnd : List Char → List Char
  | c1 :: c2 :: rest =>
    if c1 = '#' ∧ c2 = '\x7d' then rest else findCommentEnd (c2 :: rest)
  | cs => cs

/-- Trailing-newline consumption after a standalone tag
(src/tqtemplate.go lines 433-438 and 483-488): one `\n` or `\r\n`. -/
def consumeNewline : List Char → List Char
  | '\n' :: rest => rest
  | '\r' :: '\n' :: rest => rest
  | cs => cs

/-- The quote/escape-aware scan for a tag's closing delimiter
(`%\x7d` or `\x7d\x7d`, src/tqtemplate.go lines 469-496 and 505-525):
`(some body, rest)` past the closer, or `(none, remaining)` when the
Go loop runs out of input with the tag unclosed (the accumulated body
is then discarded and the remaining final byte re-read as a literal). -/
def scanTagBody (closeChar : Char) :
    (cs : List Char) → Bool → Bool → List Char → Option String × List Char
  | c1 :: c2 :: rest, quoted, escaped, acc =>
    if ¬escaped then
      if c1 = '"' then scanTagBody closeChar (c2 :: rest) (!quoted) false (acc ++ [c1])
      else if c1 = '\\' then scanTagBody closeChar (c2 :: rest) quoted true (acc ++ [c1])
      else if ¬quoted ∧ c1 = closeChar ∧ c2 = '\x7d' then (some (String.mk acc), rest)
      else scanTagBody closeChar (c2 :: rest) quoted escaped (acc ++ [c1])
    else scanTagBody closeChar (c2 :: rest) quoted false (acc ++ [c1])
  | cs, _, _, _ => (none, cs)

/-- The split of the accumulated literal at its last newline,
modelling `strings.LastIndex(literal, "\n")`: `some (pre, after)`
with `pre` ending in the newline (`literal[:lineStart+1]`) and
`after = literal[lineStart+1:]`, or `none` when the literal holds no
newline. -/
def splitLastNewline : List Char → Option (List Char × List Char)
  | [] => none
  | c :: rest =>
    match splitLastNewline rest with
    | some (a, b) => some (c :: a, b)
    | none => if c = '\n' then some ([c], rest) else none

/-- Whether a char list is whitespace-only (`strings.TrimSpace(x) == ""`). -/
def isAllSpace (cs : List Char) : Bool := cs.all goIsSpace

/-- The standalone-line decision and literal stripping shared by the
comment and control branches (src/tqtemplate.go lines 402-420 and
446-464): returns (isStandaloneLine, stripped literal).  With no
newline in the literal the tag is standalone only when the literal is
empty, or whitespace-only with the scan position equal to its length
(that is, no earlier tag was consumed); with a newline, only the part
after the last newline must be whitespace, and only that part is
stripped. -/
def standaloneInfo (literal : List Char) (i : Nat) : Bool × List Char :=
  match splitLastNewline literal with
  | none =>
    let st : Bool := literal = [] ∨ (i = literal.length ∧ isAllSpace literal)
    (st, if st then [] else literal)
  | some (pre, beforeTag) =>
    let st := isAllSpace beforeTag
    (st, if st then pre else literal)

theorem findCommentEnd_length_le (cs : List Char) :
    (findCommentEnd cs).length ≤ cs.length := by
  induction cs with
  | nil => simp [findCommentEnd]
  | cons c rest ih =>
    match rest with
    | [] => simp [findCommentEnd]
    | c2 :: rest2 =>
      simp only [findCommentEnd]
      split
      · simp
        omega
      · have := ih
        simp_all [findCommentEnd]
        omega

theorem consumeNewline_length_le (cs : List Char) :
    (consumeNewline cs).length ≤ cs.length := by
  match cs with
  | [] => simp [consumeNewline]
  | '\n' :: rest => simp [consumeNewline]
  | '\r' :: '\n' :: rest =>
    simp [consumeNewline]
    omega
  | c :: rest =>
    simp only [consumeNewline]
    split <;> simp_all <;> omega

theorem scanTagBody_length_le (closeChar : Char) :
    ∀ (cs : List Char) (q e : Bool) (acc : List Char),
    (scanTagBody closeChar cs q e acc).2.length ≤ cs.length
  | [], _, _, _ => by simp [scanTagBody]
  | [c], _, _, _ => by simp [scanTagBody]
  | c1 :: c2 :: rest, q, e, acc => by
    have ih1 := scanTagBody_length_le closeChar (c2 :: rest) (!q) false (acc ++ [c1])
    have ih2 := scanTagBody_length_le closeChar (c2 :: rest) q true (acc ++ [c1])
    have ih3 := scanTagBody_length_le closeChar (c2 :: rest) q false (acc ++ [c1])
    simp only [scanTagBody]
    split_ifs <;> (try simp_all) <;> omega

/-- The scan loop of `Template.tokenize` (src/tqtemplate.go lines
392-536).  `total` is the template length; the Go byte index is
`i = total - remaining.length`.  In order: a `\x7b#` comment (elided,
with standalone-line whitespace control), a `\x7b%` control tag
(emitted with an `@` marker, same whitespace control), a `\x7b\x7b`
variable tag (no whitespace control), else a literal character; at
input end the pending literal flushes as the final token.  Every step
consumes at least one character; the structural `fuel` argument
(instantiated with the template length) only makes the recursion
structural. -/
def tokenizeAuxF (total : Nat) :
    Nat → List String → List Char → List Char → List String
  | _, tokens, literal, [] => tokens ++ [String.mk literal]
  | 0, tokens, literal, _ => tokens ++ [String.mk literal]
  | fuel + 1, tokens, literal, remaining =>
    match remaining with
    | '\x7b' :: '#' :: rest =>
      let i := total - (rest.length + 2)
      let (st, lit) := standaloneInfo literal i
      let afterComment := findCommentEnd rest
      let after2 := if st then consumeNewline afterComment else afterComment
      tokenizeAuxF total fuel tokens lit after2
    | '\x7b' :: '%' :: rest =>
      let i := total - (rest.length + 2)
      let (st, lit) := standaloneInfo literal i
      let tokens' := tokens ++ [String.mk lit]
      let scanned := scanTagBody '%' rest false false []
      match scanned.1 with
      | some body =>
        let after2 := if st then consumeNewline scanned.2 else scanned.2
        tokenizeAuxF total fuel (tokens' ++ ["@" ++ trimString body]) [] after2
      | none => tokenizeAuxF total fuel tokens' [] scanned.2
    | '\x7b' :: '\x7b' :: rest =>
      let tokens' := tokens ++ [String.mk literal]
      let scanned := scanTagBody '\x7d' rest false false []
      match scanned.1 with
      | some body => tokenizeAuxF total fuel (tokens' ++ [trimString body]) [] scanned.2
      | none => tokenizeAuxF total fuel tokens' [] scanned.2
    | c :: rest => tokenizeAuxF total fuel tokens (literal ++ [c]) rest
    | [] => tokens ++ [String.mk literal]

/-- `Template.tokenize` (src/tqtemplate.go lines 392-536). -/
def tokenize (template : String) : List String :=
  tokenizeAuxF template.data.length template.data.length [] [] template.data

/-! ## Syntax tree (src/tqtemplate.go lines 346-352 and 589-650)

`TreeNode` with its render-pass field `Value` (only ever assigned a
bool by the renderer, so modelled as `Option Bool`, `none` standing
for Go's `nil`).  The imperative builder mutates the node the cursor
points into; the functional model keeps frames of nodes under
construction and attaches a node to its parent when the cursor pops
back — the same trees result, including for unclosed tags, which the
final unwind attaches. -/

/-- `TreeNode` (src/tqtemplate.go lines 346-352). -/
inductive TreeNode where
  | mk (type : String) (expression : String) (children : List TreeNode) (value? : Option Bool)

/-- The node's `Type` field. -/
def TreeNode.type : TreeNode → String
  | .mk t _ _ _ => t

/-- The node's `Expression` field. -/
def TreeNode.expression : TreeNode → String
  | .mk _ e _ _ => e

/-- The node's `Children` field. -/
def TreeNode.children : TreeNode → List TreeNode
  | .mk _ _ c _ => c

/-- The node's `Value` field (`nil` or a stored condition result). -/
def TreeNode.valueB : TreeNode → Option Bool
  | .mk _ _ _ v => v

/-- The node with its `Value` field assigned (`node.Value = b`). -/
def TreeNode.setValue : TreeNode → Bool → TreeNode
  | .mk t e c _, b => .mk t e c (some b)

/-- A node being built: its children are collected in reverse. -/
structure BuildFrame where
  type : String
  expression : String
  childrenRev : List TreeNode

/-- Close a frame into a finished node. -/
def closeFrame (f : BuildFrame) : TreeNode :=
  .mk f.type f.expression f.childrenRev.reverse none

/-- Append a finished node as the next child of a frame. -/
def frameAdd (f : BuildFrame) (n : TreeNode) : BuildFrame :=
  { f with childrenRev := n :: f.childrenRev }

/-- Tag classification of `createSyntaxTree`
(src/tqtemplate.go lines 606-624): bare `endif`/`endfor`/`else`,
prefixed `elseif `/`if `/`for `, anything else a variable node. -/
def classifyToken (token : String) : String × String :=
  if token = "endif" then ("endif", "")
  else if token = "endfor" then ("endfor", "")
  else if token = "else" then ("else", "")
  else if strStartsWith token "elseif " then ("elseif", trimString (token.drop 7))
  else if strStartsWith token "if " then ("if", trimString (token.drop 3))
  else if strStartsWith token "for " then ("for", trimString (token.drop 4))
  else ("var", token)

/-- The token loop of `createSyntaxTree` (src/tqtemplate.go lines
589-650), parameterized over the classification and the three node-kind
roles so that the spec-modelled builder of the current engine can share
it: even-positioned tokens become literal children; odd-positioned
tokens are classified (after stripping the `@` control marker), closing
kinds pop the cursor stack, `var`-like kinds append a leaf, opening
kinds push a new frame. -/
def buildCore (classify : String → String × String)
    (isPop isOpen isLeaf : String → Bool) :
    List String → Bool → BuildFrame → List BuildFrame → TreeNode
  | [], _, current, stack =>
    closeFrame (stack.foldl (fun cur parent => frameAdd parent (closeFrame cur)) current)
  | tok :: toks, parity, current, stack =>
    if parity then
      let token := if strStartsWith tok "@" then tok.drop 1 else tok
      let (nodeType, expression) := classify token
      let (current, stack) :=
        if isPop nodeType then
          match stack with
          | parent :: stackRest => (frameAdd parent (closeFrame current), stackRest)
          | [] => (current, ([] : List BuildFrame))
        else (current, stack)
      let current :=
        if isLeaf nodeType then frameAdd current (.mk nodeType expression [] none)
        else current
      if isOpen nodeType then
        buildCore classify isPop isOpen isLeaf toks false ⟨nodeType, expression, []⟩ (current :: stack)
      else
        buildCore classify isPop isOpen isLeaf toks false current stack
    else
      buildCore classify isPop isOpen isLeaf toks true (frameAdd current (.mk "lit" tok [] none)) stack

/-- `createSyntaxTree` (src/tqtemplate.go lines 589-650): pop kinds
`endif`/`endfor`/`elseif`/`else`, leaf kind `var`, open kinds
`if`/`for`/`elseif`/`else`. -/
def createSyntaxTree (tokens : List String) : TreeNode :=
  buildCore classifyToken
    (fun t => t = "endif" ∨ t = "endfor" ∨ t = "elseif" ∨ t = "else")
    (fun t => t = "if" ∨ t = "for" ∨ t = "elseif" ∨ t = "else")
    (fun t => t = "var")
    tokens false ⟨"root", "", []⟩ []

/-- Modelled from the spec: the tag classification of the current
engine's syntax-tree builder.  The current `createSyntaxTree` (the
engine file defining the `Template` struct with its loader, which
blocks.go, render.go and the block tests build upon) is not among the
sources; following spec §4.2, it extends the classification with bare
`endblock`, prefixed `block `/`extends `/`include `, everything else a
variable node. -/
def classifyTokenX (token : String) : String × String :=
  if token = "endif" then ("endif", "")
  else if token = "endfor" then ("endfor", "")
  else if token = "endblock" then ("endblock", "")
  else if token = "else" then ("else", "")
  else if strStartsWith token "elseif " then ("elseif", trimString (token.drop 7))
  else if strStartsWith token "if " then ("if", trimString (token.drop 3))
  else if strStartsWith token "for " then ("for", trimString (token.drop 4))
  else if strStartsWith token "block " then ("block", trimString (token.drop 6))
  else if strStartsWith token "extends " then ("extends", trimString (token.drop 8))
  else if strStartsWith token "include " then ("include", trimString (token.drop 8))
  else ("var", token)

/-- Modelled from the spec: the current engine's syntax-tree builder
(spec §4.2) — `endif`/`endfor`/`endblock`/`elseif`/`else` pop,
`if`/`for`/`block`/`elseif`/`else` open, `var`/`extends`/`include`
are leaf nodes appended without affecting the stack. -/
def buildSyntaxTree (tokens : List String) : TreeNode :=
  buildCore classifyTokenX
    (fun t => t = "endif" ∨ t = "endfor" ∨ t = "endblock" ∨ t = "elseif" ∨ t = "else")
    (fun t => t = "if" ∨ t = "for" ∨ t = "block" ∨ t = "elseif" ∨ t = "else")
    (fun t => t = "var" ∨ t = "extends" ∨ t = "include")
    tokens false ⟨"root", "", []⟩ []

/-! ## Builtin tests and the `is` rewrite (src/tests.go) -/

/-- First index at which `pat` occurs in `cs` (`strings.Index`,
char-wise on the ASCII model). -/
def findSubstrIdx (cs pat : List Char) : Option Nat :=
  match cs with
  | [] => if pat = [] then some 0 else none
  | _ :: rest =>
    if pat.isPrefixOf cs then some 0
    else (findSubstrIdx rest pat).map (· + 1)

/-- `strings.Contains`. -/
def containsSubstr (s pat : String) : Bool := (findSubstrIdx s.data pat.data).isSome

/-- `strings.HasPrefix` / `strings.TrimPrefix` (one occurrence). -/
def trimOnePrefix (s pre : String) : String :=
  if strStartsWith s pre then s.drop pre.length else s

/-- `strings.TrimSuffix` (one occurrence). -/
def trimOneSuffix (s suf : String) : String :=
  if strEndsWith s suf then s.dropRight suf.length else s

/-- `testDefined` (src/tests.go lines 65-73): everything but the
undefined sentinel is defined — a present `nil` value included. -/
def testDefined (value : Val) : Bool :=
  match value with
  | .vundef => false
  | _ => true

/-- `testUndefined` (src/tests.go lines 75-80). -/
def testUndefined (value : Val) : Bool :=
  match value with
  | .vundef => true
  | _ => false

/-- `testDivisibleBy` (src/tests.go lines 82-99).  (Go's
`int(num)%int(divisor)` panics when a non-zero fractional divisor
truncates to integer zero; the total model returns `tmod _ 0` there.) -/
def testDivisibleBy (value : Val) (args : List Val) : Bool :=
  match args with
  | [] => false
  | a :: _ =>
    match toNumber value with
    | none => false
    | some num =>
      match toNumber a with
      | none => false
      | some divisor =>
        if divisor = 0 then false
        else Int.tmod (goTrunc num) (goTrunc divisor) = 0

/-- `testEven` (src/tests.go lines 101-107). -/
def testEven (value : Val) : Bool :=
  match toNumber value with
  | none => false
  | some num => Int.tmod (goTrunc num) 2 = 0

/-- `testOdd` (src/tests.go lines 110-116). -/
def testOdd (value : Val) : Bool :=
  match toNumber value with
  | none => false
  | some num => Int.tmod (goTrunc num) 2 ≠ 0

/-- `testIterable` (src/tests.go lines 119-132): slices, maps and
strings; `nil` is not iterable, nor are the remaining kinds. -/
def testIterable (value : Val) : Bool :=
  match value with
  | .vlist _ => true
  | .vmap _ => true
  | .vstr _ => true
  | _ => false

/-- `testNull` (src/tests.go lines 134-136). -/
def testNull (value : Val) : Bool :=
  match value with
  | .vnil => true
  | _ => false

/-- `testNumber` (src/tests.go lines 139-142). -/
def testNumber (value : Val) : Bool := (toNumber value).isSome

/-- `testString` (src/tests.go lines 145-148). -/
def testString (value : Val) : Bool :=
  match value with
  | .vstr _ => true
  | _ => false

/-- `filterIsTest` (src/tests.go lines 30-58) with the lookup in
`getBuiltinTests` (lines 13-28) inlined as a match on the test name:
the single-value tests ignore extra arguments (the `func(any) bool`
arm), `divisibleby` and the two self-referential entries
`__istest__`/`__isnot__` receive the remaining arguments (the
`func(any, ...any) bool` arm); an unknown name or an empty argument
list is `false`.  `filterIsNot` (lines 60-63) is its negation. -/
def filterIsTest (value : Val) : List Val → Bool
  | [] => false
  | a :: remaining =>
    match toString a with
    | "defined" => testDefined value
    | "undefined" => testUndefined value
    | "divisibleby" => testDivisibleBy value remaining
    | "even" => testEven value
    | "odd" => testOdd value
    | "iterable" => testIterable value
    | "null" => testNull value
    | "number" => testNumber value
    | "string" => testString value
    | "__istest__" => filterIsTest value remaining
    | "__isnot__" => ¬filterIsTest value remaining
    | _ => false

/-- `filterIsNot` (src/tests.go lines 60-63). -/
def filterIsNot (value : Val) (args : List Val) : Bool := ¬filterIsTest value args

/-- `processIsTests` (src/tests.go lines 151-197): split at the first
`" is "`, recognize an optional `not`, and fold the right-hand test
into a synthetic `__istest__`/`__isnot__` filter call; returns the
left-hand expression and the synthetic filter (`""` when there is no
`" is "`). -/
def processIsTests (expr : String) : String × String :=
  match findSubstrIdx expr.data " is ".data with
  | none => (expr, "")
  | some isIdx =>
    let left := trimString (String.mk (expr.data.take isIdx))
    let right := trimString (String.mk (expr.data.drop (isIdx + 4)))
    let (isNegated, right) :=
      if strStartsWith right "not " then (true, trimString (right.drop 4))
      else (false, right)
    let head := if isNegated then "__isnot__(\"" else "__istest__(\""
    if strContainsChar right '(' then
      match findSubstrIdx right.data "(".data with
      | some parenIdx =>
        let testName := String.mk (right.data.take parenIdx)
        let argsWithParens := String.mk (right.data.drop parenIdx)
        let argsInner := trimOneSuffix (trimOnePrefix argsWithParens "(") ")"
        (left, head ++ testName ++ "\", " ++ argsInner ++ ")")
      | none => (left, head ++ right ++ "\")")
    else (left, head ++ right ++ "\")")

/-! ## Filter dispatch (src/helpers.go lines 91-198) and
`applyfilters` (render.go lines 356-416) -/

/-- The native Go function shapes that `callFunction`'s type switch
(src/helpers.go lines 91-198) recognizes, one constructor per arm, in
the switch's order.  A Go function returning `RawValue` is carried by
its string payload. -/
inductive GoFn where
  | anyRaw (f : Val → String)
  | strRaw (f : String → String)
  | anyStr (f : Val → String)
  | strStr (f : String → String)
  | strStrStr (f : String → String → String)
  | anyVarStr (f : Val → List Val → String)
  | anyInt (f : Val → Int)
  | anyFloat (f : Val → ℚ)
  | anyVarFloat (f : Val → List Val → ℚ)
  | anyAny (f : Val → Val)
  | anyAnyAny (f : Val → Val → Val)
  | anyVarAny (f : Val → List Val → Val)
  | anyBool (f : Val → Bool)
  | anyVarBool (f : Val → List Val → Bool)
  | anyAnyBool (f : Val → Val → Bool)
  | anyAnyAnyBool (f : Val → Val → Val → Bool)
  | intIntBool (f : Int → Int → Bool)

/-- A filter registry `map[string]any`. -/
abbrev FnMap := List (String × GoFn)

/-- `callFunction` (src/helpers.go lines 91-198): dispatch on the
function shape, check the arity, convert the leading arguments as the
source arm does, and call; anything else is
`invalid arguments for function`. -/
def callFunction (fn : GoFn) (args : List Val) : Except String Val :=
  let invalid : Except String Val := .error "invalid arguments for function"
  match fn with
  | .anyRaw f =>
    match args with
    | a :: _ => .ok (.vraw (f a))
    | [] => invalid
  | .strRaw f =>
    match args with
    | .vstr s :: _ => .ok (.vraw (f s))
    | _ => invalid
  | .anyStr f =>
    match args with
    | a :: _ => .ok (.vstr (f a))
    | [] => invalid
  | .strStr f =>
    match args with
    | a :: _ => .ok (.vstr (f (toString a)))
    | [] => invalid
  | .strStrStr f =>
    match args with
    | a :: b :: _ => .ok (.vstr (f (toString a) (toString b)))
    | _ => invalid
  | .anyVarStr f =>
    match args with
    | a :: rest => .ok (.vstr (f a rest))
    | [] => invalid
  | .anyInt f =>
    match args with
    | a :: _ => .ok (.vint (f a))
    | [] => invalid
  | .anyFloat f =>
    match args with
    | a :: _ => .ok (.vfloat (f a))
    | [] => invalid
  | .anyVarFloat f =>
    match args with
    | a :: rest => .ok (.vfloat (f a rest))
    | [] => invalid
  | .anyAny f =>
    match args with
    | a :: _ => .ok (f a)
    | [] => invalid
  | .anyAnyAny f =>
    match args with
    | a :: b :: _ => .ok (f a b)
    | _ => invalid
  | .anyVarAny f =>
    match args with
    | a :: rest => .ok (f a rest)
    | [] => invalid
  | .anyBool f =>
    match args with
    | a :: _ => .ok (.vbool (f a))
    | [] => invalid
  | .anyVarBool f =>
    match args with
    | a :: rest => .ok (.vbool (f a rest))
    | [] => invalid
  | .anyAnyBool f =>
    match args with
    | a :: b :: _ => .ok (.vbool (f a b))
    | _ => invalid
  | .anyAnyAnyBool f =>
    match args with
    | a :: b :: c :: _ => .ok (.vbool (f a b c))
    | _ => invalid
  | .intIntBool f =>
    match args with
    | a :: b :: _ =>
      .ok (.vbool (f (goTrunc ((toNumber a).getD 0)) (goTrunc ((toNumber b).getD 0))))
    | _ => invalid

/-- The unescape of a quoted filter argument
(render.go lines 368-375): `\n`, `\t`, `\"`, `\\`, in that order. -/
def unescapeArg (s : String) : String :=
  replaceAll (replaceAll (replaceAll (replaceAll s "\\n" "\n") "\\t" "\t") "\\\"" "\"") "\\\\" "\\"

/-- Parsing of one filter argument (render.go lines 364-397): a
quoted string literal unescaped; `true`/`false`; a number (int unless
it has a dot); otherwise a path resolved against the context. -/
def parseFilterArg (argStr : String) (data : ValMap) : Except String Val :=
  let argStr := trimString argStr
  let cs := argStr.data
  if cs.length > 1 ∧ cs.head? = some '"' ∧ cs.getLast? = some '"' then
    .ok (.vstr (unescapeArg (String.mk (cs.drop 1 |>.dropLast))))
  else if argStr = "true" then .ok (.vbool true)
  else if argStr = "false" then .ok (.vbool false)
  else
    match parseGoFloat argStr with
    | some num =>
      if strContainsChar argStr '.' then .ok (.vfloat num) else .ok (.vint (goTrunc num))
    | none => resolvePath argStr data

/-- Argument-list traversal of `applyfilters`. -/
def parseFilterArgs (argStrs : List String) (data : ValMap) : Except String (List Val) :=
  match argStrs with
  | [] => .ok []
  | a :: rest =>
    match parseFilterArg a data with
    | .error e => .error e
    | .ok v =>
      match parseFilterArgs rest data with
      | .error e => .error e
      | .ok vs => .ok (v :: vs)

/-- One filter application of the `applyfilters` loop
(render.go lines 356-416): split `name(args)` on the first `(` after
dropping one trailing `)`, parse the comma-separated arguments,
prepend the incoming value, and dispatch through the registry. -/
def applyOneFilter (part : String) (value : Val) (filters : FnMap) (data : ValMap) :
    Except String Val :=
  let funcParts := explodeRespectingQuotes "(" (trimOneSuffix part ")") 2
  let funcName := funcParts.headD ""
  let argsE : Except String (List Val) :=
    match funcParts with
    | _ :: argsStr :: _ => parseFilterArgs (explodeRespectingQuotes "," argsStr (-1)) data
    | _ => .ok []
  match argsE with
  | .error e => .error e
  | .ok arguments =>
    match mapLookup filters funcName with
    | some fn => callFunction fn (value :: arguments)
    | none => .error ("filter `" ++ funcName ++ "` not found")

/-- `applyfilters` (render.go lines 356-416): fold the filter chain
left to right. -/
def applyfilters (value : Val) (parts : List String) (filters : FnMap) (data : ValMap) :
    Except String Val :=
  match parts with
  | [] => .ok value
  | part :: rest =>
    match applyOneFilter part value filters data with
    | .error e => .error e
    | .ok value' => applyfilters value' rest filters data

/-! ## Renderer (render.go, blocks.go)

The render family of the current engine (render.go, the renderers the
three claims C1/C2/C7 cite; for the node kinds it shares with the
older src/tqtemplate.go renderer the two are identical up to the
`is`-test preprocessing and the `filter`/`function` word in one error
message).  The `Value` field mutation of the Go nodes is made explicit:
`renderIfNode`/`renderElseIfNode` return the node with its stored
condition result, and `renderChildren` keeps the returned nodes in its
`ifNodes` chain, exactly as the Go code keeps pointers to the mutated
nodes. -/

/-- The `Template` struct of the current engine: escape mode and the
optional template loader. -/
structure Template where
  escape : String
  loader : Option (String → Except String String)

/-- `escapeValue` (src/tqtemplate.go lines 380-390): `RawValue`
unescaped, otherwise `toString` plus HTML escaping when the escape
mode is `"html"`. -/
def escapeValue (t : Template) (value : Val) : String :=
  match value with
  | .vraw s => s
  | _ =>
    let str := toString value
    if t.escape = "html" then escapeString str else str

/-- `strings.Trim(expr, "'\"")`: strip any run of single or double
quotes from both ends (used on `extends`/`include` names). -/
def trimQuotes (s : String) : String :=
  let cut : Char → Bool := fun c => c = '\'' ∨ c = '"'
  String.mk (((s.data.dropWhile cut).reverse.dropWhile cut).reverse)

/-- `renderVarNode` (render.go lines 302-334): preprocess `is` tests,
split off the filter chain, evaluate, apply filters; any failure
becomes the inline `\x7b\x7bsource!!message\x7d\x7d` diagnostic,
escaped, with a nil error; a `RawValue` result bypasses escaping. -/
def renderVarNode (t : Template) (node : TreeNode) (data : ValMap) (filters : FnMap) :
    Except String String :=
  let expressionStr := node.expression
  let (exprPart, testFilter) := processIsTests expressionStr
  let parts := explodeRespectingQuotes "|" exprPart (-1)
  let actualExpr := parts.headD ""
  let filterParts := parts.tail
  let filterParts := if testFilter ≠ "" then filterParts ++ [testFilter] else filterParts
  match Evaluate (NewExpression actualExpr) data resolvePath with
  | .error err =>
    .ok (escapeValue t (.vstr ("\x7b\x7b" ++ expressionStr ++ "!!" ++ err ++ "\x7d\x7d")))
  | .ok value =>
    match applyfilters value filterParts filters data with
    | .error err =>
      .ok (escapeValue t (.vstr ("\x7b\x7b" ++ expressionStr ++ "!!" ++ err ++ "\x7d\x7d")))
    | .ok value =>
      match value with
      | .vraw s => .ok s
      | _ => .ok (escapeValue t value)

/-- The sentinel carve-out of `renderIfNode`/`renderElseIfNode`
(render.go lines 95-104 and 160-169): an evaluation error under a
rewritten `defined`/`undefined` test filter is replaced by the
undefined sentinel. -/
def definedCarveOut (testFilter : String) (ev : Except String Val) : Except String Val :=
  match ev with
  | .error _ =>
    if containsSubstr testFilter "__istest__(\"defined\")" ∨
       containsSubstr testFilter "__istest__(\"undefined\")" ∨
       containsSubstr testFilter "__isnot__(\"defined\")" ∨
       containsSubstr testFilter "__isnot__(\"undefined\")" then
      .ok Val.vundef
    else ev
  | .ok _ => ev

/-- The regex-class `\s` of Go's regexp package. -/
def reIsSpace (c : Char) : Bool :=
  c = ' ' ∨ c = '\t' ∨ c = '\n' ∨ c = '\x0b' ∨ c = '\x0c' ∨ c = '\r'

/-- `[a-zA-Z_]`. -/
def isGoIdentStart (c : Char) : Bool := c.isAlpha ∨ c = '_'

/-- `[a-zA-Z0-9_]`. -/
def isGoIdentChar (c : Char) : Bool := c.isAlpha ∨ c.isDigit ∨ c = '_'

/-- The optional `\s*,\s*[a-zA-Z_][a-zA-Z0-9_]*` part of the for-header
pattern: the extra length it consumes, or `none`. -/
def parseForVarsTail (cs : List Char) : Option Nat :=
  let ws1 := cs.takeWhile reIsSpace
  match cs.drop ws1.length with
  | ',' :: cs2 =>
    let ws2 := cs2.takeWhile reIsSpace
    match cs2.drop ws2.length with
    | d :: _ =>
      if isGoIdentStart d then
        some (ws1.length + 1 + ws2.length + ((cs2.drop ws2.length).takeWhile isGoIdentChar).length)
      else none
    | [] => none
  | _ => none

/-- The `\s+in\s+(.+)$` part of the for-header pattern (`.` excludes
newlines, `$` is end of text): the captured rest, or `none`. -/
def parseAfterVars (cs : List Char) : Option String :=
  let ws1 := cs.takeWhile reIsSpace
  if ws1.isEmpty then none
  else
    match cs.drop ws1.length with
    | 'i' :: 'n' :: cs2 =>
      let ws2 := cs2.takeWhile reIsSpace
      if ws2.isEmpty then none
      else
        let rest := cs2.drop ws2.length
        if rest ≠ [] ∧ rest.all (· ≠ '\n') then some (String.mk rest) else none
    | _ => none

/-- The for-header match
`^([a-zA-Z_][a-zA-Z0-9_]*(?:\s*,\s*[a-zA-Z_][a-zA-Z0-9_]*)?)\s+in\s+(.+)$`
(render.go line 226) as a hand-rolled parser: returns (vars group,
array-expression group).  The comma alternative is tried first (the
optional group is greedy) and dropped when the `\s+in\s+` sequel
fails, which — as in the regex — is the only backtracking that can
change the outcome (shortening an identifier can never expose the
whitespace `\s+` requires next). -/
def parseForHeader (s : String) : Option (String × String) :=
  let cs := s.data
  match cs with
  | [] => none
  | d :: _ =>
    if ¬isGoIdentStart d then none
    else
      let id1len := (cs.takeWhile isGoIdentChar).length
      let afterId1 := cs.drop id1len
      let withComma : Option (String × String) :=
        match parseForVarsTail afterId1 with
        | some extra =>
          match parseAfterVars (cs.drop (id1len + extra)) with
          | some arrayExpr => some (String.mk (cs.take (id1len + extra)), arrayExpr)
          | none => none
        | none => none
      match withComma with
      | some r => some r
      | none =>
        match parseAfterVars afterId1 with
        | some arrayExpr => some (String.mk (cs.take id1len), arrayExpr)
        | none => none

/-- The fresh shallow copy `newData := make(...); for k, v := range
data` of `renderForNode` (render.go lines 282-285). -/
def copyMap (m : ValMap) : ValMap :=
  m.foldl (fun acc kv => mapInsert acc kv.1 kv.2) []

/-- The per-iteration loop context of `renderForNode`
(render.go lines 281-291): shallow copy with the loop variable(s)
overlaid. -/
def forLoopData (data : ValMap) (hasKey : Bool) (key varName : String)
    (keyVal item : Val) : ValMap :=
  if hasKey then mapInsert (mapInsert (copyMap data) key keyVal) varName item
  else mapInsert (copyMap data) varName item

theorem TreeNode.sizeOf_children_lt (n : TreeNode) : sizeOf n.children < sizeOf n := by
  cases n with
  | mk t e c v => simp [TreeNode.children]; omega

mutual

/-- The child loop of `renderChildren` (render.go lines 10-74), over
the remaining children with the `ifNodes` chain accumulated so far
(Go starts it empty per call).  An `if` restarts the chain with the
just-rendered node, an `elseif` appends its node, every other handled
kind clears it; a child of an unhandled kind (e.g. `extends`) renders
nothing and leaves the chain as is.  The source recursion is unbounded
(includes may recurse forever), so the model spends one unit of fuel
per step; every terminating source run is reproduced once the fuel is
large enough. -/
def renderChildren (t : Template) (filters : FnMap) (fuel : Nat) (data : ValMap)
    (ifNodes : List TreeNode) (children : List TreeNode) : Except String String :=
  match fuel, children with
  | _, [] => .ok ""
  | 0, _ :: _ => .error "render depth limit"
  | f + 1, child :: rest =>
      if child.type = "block" then
        match renderChildren t filters f data [] child.children with
        | .error e => .error e
        | .ok output =>
          match renderChildren t filters f data [] rest with
          | .error e => .error e
          | .ok out2 => .ok (output ++ out2)
      else if child.type = "if" then
        match renderIfNode t filters f child data with
        | .error e => .error e
        | .ok (output, child2) =>
          match renderChildren t filters f data [child2] rest with
          | .error e => .error e
          | .ok out2 => .ok (output ++ out2)
      else if child.type = "elseif" then
        match renderElseIfNode t filters f child ifNodes data with
        | .error e => .error e
        | .ok (output, child2) =>
          match renderChildren t filters f data (ifNodes ++ [child2]) rest with
          | .error e => .error e
          | .ok out2 => .ok (output ++ out2)
      else if child.type = "else" then
        match renderElseNode t filters f child ifNodes data with
        | .error e => .error e
        | .ok output =>
          match renderChildren t filters f data [] rest with
          | .error e => .error e
          | .ok out2 => .ok (output ++ out2)
      else if child.type = "for" then
        match renderForNode t filters f child data with
        | .error e => .error e
        | .ok output =>
          match renderChildren t filters f data [] rest with
          | .error e => .error e
          | .ok out2 => .ok (output ++ out2)
      else if child.type = "var" then
        match renderVarNode t child data filters with
        | .error e => .error e
        | .ok output =>
          match renderChildren t filters f data [] rest with
          | .error e => .error e
          | .ok out2 => .ok (output ++ out2)
      else if child.type = "include" then
        match renderIncludeNode t filters f child data with
        | .error e => .error e
        | .ok output =>
          match renderChildren t filters f data [] rest with
          | .error e => .error e
          | .ok out2 => .ok (output ++ out2)
      else if child.type = "lit" then
        match renderChildren t filters f data [] rest with
        | .error e => .error e
        | .ok out2 => .ok (child.expression ++ out2)
      else
        renderChildren t filters f data ifNodes rest
termination_by structural fuel

/-- `renderIfNode` (render.go lines 76-125): `is`-test preprocessing,
filter-chain split, evaluation with the `defined`/`undefined` sentinel
carve-out; failures become the inline
`\x7b% if source!!message %\x7d` diagnostic with no error and the
node's stored result untouched; otherwise the children render when the
value is truthy and the node stores the condition result.  Fuel is
consumed only when the children actually render, so every other branch
is fuel-independent. -/
def renderIfNode (t : Template) (filters : FnMap) (fuel : Nat) (node : TreeNode)
    (data : ValMap) : Except String (String × TreeNode) :=
  let expressionStr := node.expression
  let (exprPart, testFilter) := processIsTests expressionStr
  let parts := explodeRespectingQuotes "|" exprPart (-1)
  let actualExpr := parts.headD ""
  let filterParts := parts.tail
  let filterParts := if testFilter ≠ "" then filterParts ++ [testFilter] else filterParts
  match definedCarveOut testFilter (Evaluate (NewExpression actualExpr) data resolvePath) with
  | .error err =>
    .ok (escapeValue t (.vstr ("\x7b% if " ++ expressionStr ++ "!!" ++ err ++ " %\x7d")), node)
  | .ok value =>
    match applyfilters value filterParts filters data with
    | .error err =>
      .ok (escapeValue t (.vstr ("\x7b% if " ++ expressionStr ++ "!!" ++ err ++ " %\x7d")), node)
    | .ok value =>
      if toBool value then
        match fuel with
        | 0 => .error "render depth limit"
        | f + 1 =>
          match renderChildren t filters f data [] node.children with
          | .error e => .error e
          | .ok output => .ok (output, node.setValue (toBool value))
      else .ok ("", node.setValue (toBool value))
termination_by structural fuel

/-- `renderElseIfNode` (render.go lines 127-193): an inline diagnostic
when the chain has no leading `if`; nothing rendered and `false`
stored when a prior chain node stored `true`; otherwise evaluated
exactly like `renderIfNode` with `elseif` diagnostics.  Fuel is
consumed only when the children actually render. -/
def renderElseIfNode (t : Template) (filters : FnMap) (fuel : Nat) (node : TreeNode)
    (ifNodes : List TreeNode) (data : ValMap) : Except String (String × TreeNode) :=
  match ifNodes with
  | [] =>
    .ok (escapeValue t (.vstr "\x7b% elseif !!could not find matching `if` %\x7d"), node)
  | first :: _ =>
    if first.type ≠ "if" then
      .ok (escapeValue t (.vstr "\x7b% elseif !!could not find matching `if` %\x7d"), node)
    else if ifNodes.any (fun n => n.valueB = some true) then
      .ok ("", node.setValue false)
    else
      let expressionStr := node.expression
      let (exprPart, testFilter) := processIsTests expressionStr
      let parts := explodeRespectingQuotes "|" exprPart (-1)
      let actualExpr := parts.headD ""
      let filterParts := parts.tail
      let filterParts := if testFilter ≠ "" then filterParts ++ [testFilter] else filterParts
      match definedCarveOut testFilter (Evaluate (NewExpression actualExpr) data resolvePath) with
      | .error err =>
        .ok (escapeValue t (.vstr ("\x7b% elseif " ++ expressionStr ++ "!!" ++ err ++ " %\x7d")), node)
      | .ok value =>
        match applyfilters value filterParts filters data with
        | .error err =>
          .ok (escapeValue t (.vstr ("\x7b% elseif " ++ expressionStr ++ "!!" ++ err ++ " %\x7d")), node)
        | .ok value =>
          if toBool value then
            match fuel with
            | 0 => .error "render depth limit"
            | f + 1 =>
              match renderChildren t filters f data [] node.children with
              | .error e => .error e
              | .ok output => .ok (output, node.setValue (toBool value))
          else .ok ("", node.setValue (toBool value))
termination_by structural fuel

/-- `renderElseNode` (render.go lines 196-219): an inline diagnostic
when the chain has no leading `if`; children render exactly when no
prior chain node stored `true`.  Fuel is consumed only when the
children actually render. -/
def renderElseNode (t : Template) (filters : FnMap) (fuel : Nat) (node : TreeNode)
    (ifNodes : List TreeNode) (data : ValMap) : Except String String :=
  match ifNodes with
  | [] => .ok (escapeValue t (.vstr "\x7b% else !!could not find matching `if` %\x7d"))
  | first :: _ =>
    if first.type ≠ "if" then
      .ok (escapeValue t (.vstr "\x7b% else !!could not find matching `if` %\x7d"))
    else if ifNodes.any (fun n => n.valueB = some true) then .ok ""
    else
      match fuel with
      | 0 => .error "render depth limit"
      | f + 1 => renderChildren t filters f data [] node.children
termination_by structural fuel

/-- `renderForNode` (render.go lines 222-300): parse the header,
resolve the source path, apply filters, convert to items and keys
(slices with integer indices, maps with their keys in the model's
list order), and render the body once per element against the
copied-and-overlaid context; header, resolution, filter and
non-iterable failures are inline diagnostics, all fuel-independent. -/
def renderForNode (t : Template) (filters : FnMap) (fuel : Nat) (node : TreeNode)
    (data : ValMap) : Except String String :=
  let expressionStr := node.expression
  match parseForHeader expressionStr with
  | none =>
    .ok (escapeValue t (.vstr ("\x7b% for " ++ expressionStr ++
      "!!invalid syntax, expected \"item in array\" or \"key, value in array\" %\x7d")))
  | some (vars, arrayExpr) =>
    let hasKey := strContainsChar vars ','
    let (key, varName) :=
      if hasKey then
        let varParts := strSplitOnChar vars ','
        (trimString (varParts.headD ""), trimString ((varParts.drop 1).headD ""))
      else ("", trimString vars)
    let parts := explodeRespectingQuotes "|" arrayExpr (-1)
    let path := trimString (parts.headD "")
    let filterParts := parts.tail
    match resolvePath path data with
    | .error err =>
      .ok (escapeValue t (.vstr ("\x7b% for " ++ expressionStr ++ "!!" ++ err ++ " %\x7d")))
    | .ok value =>
      match applyfilters value filterParts filters data with
      | .error err =>
        .ok (escapeValue t (.vstr ("\x7b% for " ++ expressionStr ++ "!!" ++ err ++ " %\x7d")))
      | .ok value =>
        match value with
        | .vlist items =>
          match fuel with
          | 0 => .error "render depth limit"
          | f + 1 =>
            renderForItems t filters f node data hasKey key varName
              (items.zip ((List.range items.length).map Val.vint))
        | .vmap m =>
          match fuel with
          | 0 => .error "render depth limit"
          | f + 1 =>
            renderForItems t filters f node data hasKey key varName
              (m.map (fun kv => (kv.2, Val.vstr kv.1)))
        | _ =>
          .ok (escapeValue t (.vstr ("\x7b% for " ++ expressionStr ++
            "!!expression must evaluate to an array %\x7d")))
termination_by structural fuel

/-- The iteration loop of `renderForNode` (render.go lines 280-297):
each (item, key) pair renders the body against
`forLoopData data hasKey key varName keyVal item`, outputs
concatenate in order. -/
def renderForItems (t : Template) (filters : FnMap) (fuel : Nat) (node : TreeNode)
    (data : ValMap) (hasKey : Bool) (key varName : String)
    (pairs : List (Val × Val)) : Except String String :=
  match fuel, pairs with
  | _, [] => .ok ""
  | 0, _ :: _ => .error "render depth limit"
  | f + 1, (item, keyVal) :: rest =>
      match renderChildren t filters f (forLoopData data hasKey key varName keyVal item)
          [] node.children with
      | .error e => .error e
      | .ok output =>
        match renderForItems t filters f node data hasKey key varName rest with
        | .error e => .error e
        | .ok out2 => .ok (output ++ out2)
termination_by structural fuel

/-- `renderIncludeNode` (render.go lines 418-439): a hard error when
no loader is configured or the loader fails; otherwise the loaded
template is tokenized, built (with the block-aware builder of the
current engine) and rendered against the same data and filters.  The
fuel guard models the unbounded include recursion of the source and
sits after the two error checks, which are therefore fuel-independent. -/
def renderIncludeNode (t : Template) (filters : FnMap) (fuel : Nat) (node : TreeNode)
    (data : ValMap) : Except String String :=
  match t.loader with
  | none => .error "template loader not configured for include directive"
  | some loader =>
    let templateName := trimQuotes node.expression
    match loader templateName with
    | .error err =>
      .error ("failed to load included template '" ++ templateName ++ "': " ++ err)
    | .ok content =>
      match fuel with
      | 0 => .error "render depth limit"
      | f + 1 =>
        renderChildren t filters f data [] (buildSyntaxTree (tokenize content)).children
termination_by structural fuel

/-- `renderWithBlocks` (blocks.go lines 66-161): render a tree with
block overrides substituted by name. -/
def renderWithBlocks (t : Template) (filters : FnMap) (fuel : Nat)
    (overrides : List (String × TreeNode)) (data : ValMap) (tree : TreeNode) :
    Except String String :=
  match fuel with
  | 0 => .error "render depth limit"
  | f + 1 => renderWithBlocksAux t filters f overrides data none [] tree.children
termination_by structural fuel

/-- The child loop of `renderWithBlocks` (blocks.go lines 71-158):
like `renderChildren` plus the `block` case — an overridden block
renders the override's children (prefixed by single-line whitespace
taken from the preceding literal), a block without an override renders
its own children, both again with the overrides in scope; a
newline-free whitespace literal directly before a block is skipped
(it is re-emitted by the block case).  `prev?` carries the preceding
child. -/
def renderWithBlocksAux (t : Template) (filters : FnMap) (fuel : Nat)
    (overrides : List (String × TreeNode)) (data : ValMap) (prev? : Option TreeNode)
    (ifNodes : List TreeNode) (children : List TreeNode) : Except String String :=
  match fuel, children with
  | _, [] => .ok ""
  | 0, _ :: _ => .error "render depth limit"
  | f + 1, child :: rest =>
      if child.type = "block" then
        let precedingWhitespace :=
          match prev? with
          | some p =>
            if (p.type == "lit") && isAllSpace p.expression.data &&
               !(strContainsChar p.expression '\n') && !(strContainsChar p.expression '\r') then
              p.expression
            else ""
          | none => ""
        let subE : Except String String :=
          match mapLookup overrides child.expression with
          | some override =>
            match renderWithBlocks t filters f overrides data override with
            | .error e => .error e
            | .ok out => .ok (precedingWhitespace ++ out)
          | none => renderWithBlocks t filters f overrides data child
        match subE with
        | .error e => .error e
        | .ok output =>
          match renderWithBlocksAux t filters f overrides data (some child) [] rest with
          | .error e => .error e
          | .ok out2 => .ok (output ++ out2)
      else if child.type = "if" then
        match renderIfNode t filters f child data with
        | .error e => .error e
        | .ok (output, child2) =>
          match renderWithBlocksAux t filters f overrides data (some child) [child2] rest with
          | .error e => .error e
          | .ok out2 => .ok (output ++ out2)
      else if child.type = "elseif" then
        match renderElseIfNode t filters f child ifNodes data with
        | .error e => .error e
        | .ok (output, child2) =>
          match renderWithBlocksAux t filters f overrides data (some child) (ifNodes ++ [child2]) rest with
          | .error e => .error e
          | .ok out2 => .ok (output ++ out2)
      else if child.type = "else" then
        match renderElseNode t filters f child ifNodes data with
        | .error e => .error e
        | .ok output =>
          match renderWithBlocksAux t filters f overrides data (some child) [] rest with
          | .error e => .error e
          | .ok out2 => .ok (output ++ out2)
      else if child.type = "for" then
        match renderForNode t filters f child data with
        | .error e => .error e
        | .ok output =>
          match renderWithBlocksAux t filters f overrides data (some child) [] rest with
          | .error e => .error e
          | .ok out2 => .ok (output ++ out2)
      else if child.type = "var" then
        match renderVarNode t child data filters with
        | .error e => .error e
        | .ok output =>
          match renderWithBlocksAux t filters f overrides data (some child) [] rest with
          | .error e => .error e
          | .ok out2 => .ok (output ++ out2)
      else if child.type = "lit" then
        let skip :=
          match rest.head? with
          | some nxt =>
            (nxt.type == "block") && isAllSpace child.expression.data &&
              !(strContainsChar child.expression '\n') && !(strContainsChar child.expression '\r')
          | none => false
        if skip then renderWithBlocksAux t filters f overrides data (some child) [] rest
        else
          match renderWithBlocksAux t filters f overrides data (some child) [] rest with
          | .error e => .error e
          | .ok out2 => .ok (child.expression ++ out2)
      else renderWithBlocksAux t filters f overrides data (some child) ifNodes rest
termination_by structural fuel

end


/-! ## Inheritance (src/blocks.go) and the top-level entries -/

/-- `findExtendsNode` (src/blocks.go lines 8-22): the first child that
is an `extends` node, skipping whitespace-only literals; any other
content stops the search. -/
def findExtendsNode : List TreeNode → Option TreeNode
  | [] => none
  | child :: rest =>
    if child.type = "extends" then some child
    else if child.type = "lit" ∧ trimString child.expression = "" then findExtendsNode rest
    else none

mutual

/-- `collectBlocks`'s walk (src/blocks.go lines 50-64): preorder over
the tree, `blocks[node.Expression] = node` for every block node (a
later visit overwrites an earlier one of the same name). -/
def collectBlocks (node : TreeNode) (acc : List (String × TreeNode)) :
    List (String × TreeNode) :=
  let acc := if node.type = "block" then mapInsert acc node.expression node else acc
  have hlt := TreeNode.sizeOf_children_lt node
  collectBlocksList node.children acc
termination_by sizeOf node

/-- The child traversal of `collectBlocks`'s walk. -/
def collectBlocksList (children : List TreeNode) (acc : List (String × TreeNode)) :
    List (String × TreeNode) :=
  match children with
  | [] => acc
  | c :: cs => collectBlocksList cs (collectBlocks c acc)
termination_by sizeOf children

end

/-- `renderWithExtends` (src/blocks.go lines 24-48): a hard error when
no loader is configured or the parent fails to load; otherwise the
parent is parsed (with the block-aware builder of the current engine),
the child's blocks are collected, and the parent renders with them as
overrides. -/
def renderWithExtends (t : Template) (filters : FnMap) (fuel : Nat)
    (childTree : TreeNode) (extendsNode : TreeNode) (data : ValMap) :
    Except String String :=
  match t.loader with
  | none => .error "template loader not configured for extends directive"
  | some loader =>
    let parentName := trimQuotes extendsNode.expression
    match loader parentName with
    | .error err =>
      .error ("failed to load parent template '" ++ parentName ++ "': " ++ err)
    | .ok parentContent =>
      let parentTree := buildSyntaxTree (tokenize parentContent)
      let childBlocks := collectBlocks childTree []
      renderWithBlocks t filters fuel childBlocks data parentTree

/-- The built-in `raw` filter registered by `Render`
(src/tqtemplate.go lines 372-375): `func(value string) RawValue`. -/
def rawBuiltin : GoFn := .strRaw (fun value => value)

/-- `Render` (src/tqtemplate.go lines 364-378): tokenize, build the
tree, force the functions map to exist (`nil` becomes a fresh map) and
install the built-in `raw` filter into it — a caller-visible mutation
of the supplied map, modelled by also returning the updated map —
then render the children.  (The children renderer embedded here is the
current render.go one; for the node kinds this file's builder
produces, it differs from the renderer beside this `Render` only in
the `is`-test preprocessing and one error word.) -/
def Render (t : Template) (fuel : Nat) (template : String) (data : ValMap)
    (functions : Option FnMap) : Except String String × FnMap :=
  let tokens := tokenize template
  let tree := createSyntaxTree tokens
  let functions' := match functions with
    | none => ([] : FnMap)
    | some m => m
  let functions' := mapInsert functions' "raw" rawBuiltin
  (renderChildren t functions' fuel data [] tree.children, functions')

/-- Modelled from the spec: the top-level render of the current engine
(its file — the `Template` methods `Render`/`RenderWithFilters` that
merge the builtin registries and dispatch on `extends` — is not among
the sources).  Per spec §4.4/§2: tokenize, build the tree with the
block-aware builder, and when the tree's first substantive child is an
`extends` node render through the inheritance resolver, else render
the children; the filter registry is taken as an argument (spec §6). -/
def renderTemplate (t : Template) (filters : FnMap) (fuel : Nat)
    (template : String) (data : ValMap) : Except String String :=
  let tree := buildSyntaxTree (tokenize template)
  match findExtendsNode tree.children with
  | some extendsNode => renderWithExtends t filters fuel tree extendsNode data
  | none => renderChildren t filters fuel data [] tree.children

/-- The filter map holding the two rewritten-test entries
(`__istest__`/`__isnot__` of src/tests.go `getBuiltinTests`), which
the current engine's render entry registers before rendering. -/
def isTestFns : FnMap :=
  [("__istest__", .anyVarBool filterIsTest), ("__isnot__", .anyVarBool filterIsNot)]

/-- The html-escaping template instance with no loader
(`NewTemplate()`). -/
def htmlTemplate : Template := { escape := "html", loader := none }

/-! ## Map lemmas -/

theorem mapLookup_insert_self (m : List (String × α)) (k : String) (v : α) :
    mapLookup (mapInsert m k v) k = some v := by
  induction m with
  | nil => simp [mapInsert, mapLookup]
  | cons kv rest ih =>
    obtain ⟨k', v'⟩ := kv
    by_cases h : k' = k
    · simp [mapInsert, mapLookup, h]
    · simp [mapInsert, mapLookup, h, ih]

theorem mapLookup_insert_other (m : List (String × α)) (k k' : String) (v : α)
    (h : ¬k' = k) : mapLookup (mapInsert m k v) k' = mapLookup m k' := by
  have h2 : ¬k = k' := fun hh => h hh.symm
  induction m with
  | nil => simp [mapInsert, mapLookup, h2]
  | cons kv rest ih =>
    obtain ⟨k0, v0⟩ := kv
    by_cases h0 : k0 = k
    · subst h0
      simp [mapInsert, mapLookup, h2]
    · simp [mapInsert, mapLookup, h0, ih]

theorem mapLookup_eq_none_of_not_mem (m : List (String × α)) (k : String)
    (h : k ∉ m.map Prod.fst) : mapLookup m k = none := by
  induction m with
  | nil => simp [mapLookup]
  | cons kv rest ih =>
    obtain ⟨k0, v0⟩ := kv
    simp only [List.map_cons, List.mem_cons] at h
    push_neg at h
    have hne : ¬k0 = k := fun hh => h.1 hh.symm
    simp [mapLookup, hne, ih h.2]

theorem mapLookup_foldl_insert (m : List (String × α)) :
    ∀ (acc : List (String × α)) (k : String),
    (m.map Prod.fst).Nodup →
    mapLookup (m.foldl (fun a kv => mapInsert a kv.1 kv.2) acc) k =
      match mapLookup m k with
      | some v => some v
      | none => mapLookup acc k := by
  induction m with
  | nil => intro acc k _; simp [mapLookup]
  | cons kv rest ih =>
    intro acc k hnd
    obtain ⟨k0, v0⟩ := kv
    simp only [List.map_cons, List.nodup_cons] at hnd
    simp only [List.foldl_cons]
    rw [ih (mapInsert acc k0 v0) k hnd.2]
    by_cases h : k0 = k
    · subst h
      rw [mapLookup_eq_none_of_not_mem rest k0 hnd.1]
      simp [mapLookup, mapLookup_insert_self]
    · simp only [mapLookup, h, if_false]
      cases mapLookup rest k with
      | some v => simp
      | none => simp [mapLookup_insert_other acc k0 k v0 (fun hh => h hh.symm)]

/-- Shallow-copy faithfulness: for a well-formed context (unique keys,
as a Go map guarantees), the per-iteration copy of `renderForNode`
preserves every lookup. -/
theorem mapLookup_copyMap (m : ValMap) (k : String)
    (hnd : (m.map Prod.fst).Nodup) : mapLookup (copyMap m) k = mapLookup m k := by
  unfold copyMap
  rw [mapLookup_foldl_insert m [] k hnd]
  cases h : mapLookup m k <;> simp [mapLookup]

/-! ## Claim theorems -/

/-- C10: Render mutates the caller-supplied functions map: with a
supplied map, the `"raw"` entry is unconditionally set (overwriting
any caller-provided filter of that name, since the lookup afterwards
yields the builtin whatever the map held) and the mutation is visible
in the map `Render` hands back (the model of the in-place Go map
write); every other key is untouched; a `nil` functions argument is
replaced by a fresh one-entry map, so `Render` is total on `none`. -/
theorem c10_render_mutates_functions :
    (∀ (t : Template) (fuel : Nat) (template : String) (data : ValMap) (fns : FnMap),
      mapLookup (Render t fuel template data (some fns)).2 "raw" = some rawBuiltin) ∧
    (∀ (t : Template) (fuel : Nat) (template : String) (data : ValMap) (fns : FnMap)
      (k : String), ¬k = "raw" →
      mapLookup (Render t fuel template data (some fns)).2 k = mapLookup fns k) ∧
    (∀ (t : Template) (fuel : Nat) (template : String) (data : ValMap),
      (Render t fuel template data none).2 = [("raw", rawBuiltin)]) := by
  refine ⟨?_, ?_, ?_⟩
  · intro t fuel template data fns
    simp [Render, mapLookup_insert_self]
  · intro t fuel template data fns k hk
    simp [Render, mapLookup_insert_other _ _ _ _ hk]
  · intro t fuel template data
    simp [Render, mapInsert]

theorem c10_render_mutates_functions_witness :
    mapLookup (Render htmlTemplate 0 "x" [] (some [("f", rawBuiltin)])).2 "f" =
      mapLookup [("f", rawBuiltin)] "f" :=
  c10_render_mutates_functions.2.1 htmlTemplate 0 "x" [] [("f", rawBuiltin)] "f" (by decide)

set_option maxHeartbeats 2000000 in
/-- C8: structural misconfigurations are hard failures, not inline
diagnostics: whenever an `extends` or `include` directive is reached
with no loader configured, or the loader fails to produce the named
template, the error propagates as a non-nil error (shown both for the
source functions `renderWithExtends`/`renderIncludeNode` and through
the spec-modelled top-level entry on concrete templates, for any data
and any fuel — no inline error text is produced on these paths). -/
theorem c8_loader_hard_errors :
    (∀ (t : Template) (filters : FnMap) (fuel : Nat) (childTree extendsNode : TreeNode)
      (data : ValMap), t.loader = none →
      renderWithExtends t filters fuel childTree extendsNode data =
        .error "template loader not configured for extends directive") ∧
    (∀ (t : Template) (L : String → Except String String) (filters : FnMap) (fuel : Nat)
      (childTree extendsNode : TreeNode) (data : ValMap) (err : String),
      t.loader = some L → L (trimQuotes extendsNode.expression) = .error err →
      renderWithExtends t filters fuel childTree extendsNode data =
        .error ("failed to load parent template '" ++ trimQuotes extendsNode.expression ++
          "': " ++ err)) ∧
    (∀ (t : Template) (filters : FnMap) (fuel : Nat) (node : TreeNode) (data : ValMap),
      t.loader = none →
      renderIncludeNode t filters fuel node data =
        .error "template loader not configured for include directive") ∧
    (∀ (t : Template) (L : String → Except String String) (filters : FnMap) (fuel : Nat)
      (node : TreeNode) (data : ValMap) (err : String),
      t.loader = some L → L (trimQuotes node.expression) = .error err →
      renderIncludeNode t filters fuel node data =
        .error ("failed to load included template '" ++ trimQuotes node.expression ++
          "': " ++ err)) ∧
    (∀ (fuel : Nat) (data : ValMap),
      renderTemplate htmlTemplate [] fuel "\x7b% extends 'base.html' %\x7d" data =
        .error "template loader not configured for extends directive") ∧
    (∀ (fuel : Nat) (data : ValMap),
      renderTemplate htmlTemplate [] (fuel + 2) "A\x7b% include 'x.html' %\x7dB" data =
        .error "template loader not configured for include directive") := by
  have hext : ∀ (t : Template) (filters : FnMap) (fuel : Nat)
      (childTree extendsNode : TreeNode) (data : ValMap), t.loader = none →
      renderWithExtends t filters fuel childTree extendsNode data =
        .error "template loader not configured for extends directive" := by
    intro t filters fuel childTree extendsNode data hl
    simp [renderWithExtends, hl]
  have hinc : ∀ (t : Template) (filters : FnMap) (fuel : Nat) (node : TreeNode)
      (data : ValMap), t.loader = none →
      renderIncludeNode t filters fuel node data =
        .error "template loader not configured for include directive" := by
    intro t filters fuel node data hl
    simp [renderIncludeNode, hl]
  refine ⟨hext, ?_, hinc, ?_, ?_, ?_⟩
  · intro t L filters fuel childTree extendsNode data err hl hL
    simp [renderWithExtends, hl, hL]
  · intro t L filters fuel node data err hl hL
    simp [renderIncludeNode, hl, hL]
  · intro fuel data
    have h : renderTemplate htmlTemplate [] fuel "\x7b% extends 'base.html' %\x7d" data =
        renderWithExtends htmlTemplate [] fuel
          (buildSyntaxTree (tokenize "\x7b% extends 'base.html' %\x7d"))
          (TreeNode.mk "extends" "'base.html'" [] none) data := rfl
    rw [h]
    exact hext htmlTemplate [] fuel _ _ data rfl
  · intro fuel data
    have h : renderTemplate htmlTemplate [] (fuel + 2) "A\x7b% include 'x.html' %\x7dB" data =
        renderChildren htmlTemplate [] (fuel + 2) data []
          [TreeNode.mk "lit" "A" [] none, TreeNode.mk "include" "'x.html'" [] none,
           TreeNode.mk "lit" "B" [] none] := rfl
    have h2 : renderChildren htmlTemplate [] (fuel + 1) data []
          [TreeNode.mk "include" "'x.html'" [] none, TreeNode.mk "lit" "B" [] none] =
        .error "template loader not configured for include directive" := by
      rw [renderChildren]
      show (match renderIncludeNode htmlTemplate [] fuel
              (TreeNode.mk "include" "'x.html'" [] none) data with
            | .error e => Except.error e
            | .ok output =>
              match renderChildren htmlTemplate [] fuel data []
                  [TreeNode.mk "lit" "B" [] none] with
              | .error e => Except.error e
              | .ok out2 => Except.ok (output ++ out2)) =
          Except.error "template loader not configured for include directive"
      rw [hinc htmlTemplate [] fuel (TreeNode.mk "include" "'x.html'" [] none) data rfl]
    rw [h, renderChildren]
    show (match renderChildren htmlTemplate [] (fuel + 1) data []
            [TreeNode.mk "include" "'x.html'" [] none, TreeNode.mk "lit" "B" [] none] with
          | .error e => Except.error e
          | .ok out2 => Except.ok ("A" ++ out2)) =
        Except.error "template loader not configured for include directive"
    rw [h2]

theorem c8_loader_hard_errors_witness :
    renderIncludeNode htmlTemplate [] 3 (TreeNode.mk "include" "'x.html'" [] none) [] =
      .error "template loader not configured for include directive" :=
  c8_loader_hard_errors.2.2.1 htmlTemplate [] 3 (TreeNode.mk "include" "'x.html'" [] none)
    [] rfl

set_option maxHeartbeats 4000000 in
/-- C2: conditional chains are first-match-wins.  Once any earlier
node of the chain stored a true condition result: a later `elseif`
stores `false` and renders nothing, without its expression being
evaluated (the statement holds for every node, whatever its
expression); `else` renders nothing.  When no prior branch matched,
`else` renders exactly its children.  Concretely,
`\x7b% if a>10 %\x7dfirst\x7b% elseif a>5 %\x7dsecond\x7b% else %\x7dthird\x7b% endif %\x7d`
with `a = 7` renders `"second"`. -/
theorem c2_elseif_first_match_wins :
    (∀ (t : Template) (filters : FnMap) (fuel : Nat) (node first : TreeNode)
      (rest : List TreeNode) (data : ValMap),
      first.type = "if" →
      ((first :: rest).any (fun n => n.valueB = some true)) = true →
      renderElseIfNode t filters fuel node (first :: rest) data =
        .ok ("", node.setValue false)) ∧
    (∀ (t : Template) (filters : FnMap) (fuel : Nat) (node first : TreeNode)
      (rest : List TreeNode) (data : ValMap),
      first.type = "if" →
      ((first :: rest).any (fun n => n.valueB = some true)) = true →
      renderElseNode t filters fuel node (first :: rest) data = .ok "") ∧
    (∀ (t : Template) (filters : FnMap) (fuel : Nat) (node first : TreeNode)
      (rest : List TreeNode) (data : ValMap),
      first.type = "if" →
      ((first :: rest).any (fun n => n.valueB = some true)) = false →
      renderElseNode t filters (fuel + 1) node (first :: rest) data =
        renderChildren t filters fuel data [] node.children) ∧
    renderChildren htmlTemplate isTestFns 30 [("a", .vint 7)] []
      (createSyntaxTree (tokenize
        "\x7b% if a>10 %\x7dfirst\x7b% elseif a>5 %\x7dsecond\x7b% else %\x7dthird\x7b% endif %\x7d")).children =
      .ok "second" := by
  refine ⟨?_, ?_, ?_, ?_⟩
  · intro t filters fuel node first rest data h1 h2
    rw [renderElseIfNode]
    rw [if_neg (show ¬(first.type ≠ "if") by simp [h1]), if_pos h2]
  · intro t filters fuel node first rest data h1 h2
    simp only [renderElseNode.eq_def]
    rw [if_neg (show ¬(first.type ≠ "if") by simp [h1]), if_pos h2]
  · intro t filters fuel node first rest data h1 h2
    simp only [renderElseNode.eq_def]
    rw [if_neg (show ¬(first.type ≠ "if") by simp [h1]),
        if_neg (show ¬((first :: rest).any (fun n => n.valueB = some true) = true) by
          simp [h2])]
  · rfl

theorem c2_elseif_first_match_wins_witness :
    ((TreeNode.mk "if" "a>10" [] (some true)).type = "if" ∧
     renderElseIfNode htmlTemplate [] 0 (TreeNode.mk "elseif" "a>5" [] none)
        [TreeNode.mk "if" "a>10" [] (some true)] [] =
      .ok ("", (TreeNode.mk "elseif" "a>5" [] none).setValue false)) ∧
    (renderElseNode htmlTemplate [] 0 (TreeNode.mk "else" "" [] none)
        [TreeNode.mk "if" "a>10" [] (some true)] [] = .ok "") ∧
    (renderElseNode htmlTemplate [] 1
        (TreeNode.mk "else" "" [TreeNode.mk "lit" "third" [] none] none)
        [TreeNode.mk "if" "a>10" [] (some false)] [] =
      renderChildren htmlTemplate [] 0 [] [] [TreeNode.mk "lit" "third" [] none]) :=
  ⟨⟨rfl, c2_elseif_first_match_wins.1 htmlTemplate [] 0 _ _ _ [] rfl (by decide)⟩,
   c2_elseif_first_match_wins.2.1 htmlTemplate [] 0 _ _ _ [] rfl (by decide),
   c2_elseif_first_match_wins.2.2.1 htmlTemplate [] 0 _ _ _ [] rfl (by decide)⟩

/-- C1: recoverable variable-tag failures never surface as errors:
`renderVarNode` is total (always `.ok`), an evaluation failure is
spliced inline as the escaped `\x7b\x7bsource!!message\x7d\x7d`
diagnostic, and concretely `\x7b\x7ba / 0\x7d\x7d` with `a = 10`
renders exactly `\x7b\x7ba / 0!!division by zero\x7d\x7d` (whose
characters need no HTML escaping), with rendering continuing through
surrounding siblings. -/
theorem c1_recoverable_inline_diagnostics :
    (∀ (t : Template) (node : TreeNode) (data : ValMap) (filters : FnMap),
      ∃ s, renderVarNode t node data filters = .ok s) ∧
    (∀ (t : Template) (node : TreeNode) (data : ValMap) (filters : FnMap) (err : String),
      Evaluate (NewExpression ((explodeRespectingQuotes "|"
          (processIsTests node.expression).1 (-1)).headD "")) data resolvePath =
        .error err →
      renderVarNode t node data filters =
        .ok (escapeValue t
          (.vstr ("\x7b\x7b" ++ node.expression ++ "!!" ++ err ++ "\x7d\x7d")))) ∧
    (renderChildren htmlTemplate isTestFns 30 [("a", .vint 10)] []
        (createSyntaxTree (tokenize "\x7b\x7ba / 0\x7d\x7d")).children =
      .ok "\x7b\x7ba / 0!!division by zero\x7d\x7d") ∧
    (renderChildren htmlTemplate isTestFns 30 [("a", .vint 10)] []
        (createSyntaxTree (tokenize "X\x7b\x7ba / 0\x7d\x7dY")).children =
      .ok "X\x7b\x7ba / 0!!division by zero\x7d\x7dY") := by
  refine ⟨?_, ?_, rfl, rfl⟩
  · intro t node data filters
    rcases hpt : processIsTests node.expression with ⟨ep, tf⟩
    simp only [renderVarNode, hpt]
    repeat' split
    all_goals exact ⟨_, rfl⟩
  · intro t node data filters err h
    rcases hpt : processIsTests node.expression with ⟨ep, tf⟩
    rw [hpt] at h
    simp only [renderVarNode, hpt]
    rw [h]

theorem c1_recoverable_inline_diagnostics_witness :
    renderVarNode htmlTemplate (TreeNode.mk "var" "a / 0" [] none) [("a", .vint 10)] [] =
      .ok (escapeValue htmlTemplate
        (.vstr ("\x7b\x7b" ++ (TreeNode.mk "var" "a / 0" [] none).expression ++ "!!" ++
          "division by zero" ++ "\x7d\x7d"))) :=
  c1_recoverable_inline_diagnostics.2.1 htmlTemplate (TreeNode.mk "var" "a / 0" [] none)
    [("a", .vint 10)] [] "division by zero" rfl

/-- C5: expression evaluation respects the documented precedence table
(or/|| = 1 < and/&& = 2 < ==/!= = 3 < comparisons = 4 < +- = 5 <
*, /, % = 6 < unary not = 7, right-associative) through the
Shunting-Yard conversion: the RPN forms of `a + b * c`, `(a + b) * c`
and `a==1||b==2&&c==3` group as the table dictates, and the renders of
the three documented examples give `"14"`, `"18"` and the truthy
branch. -/
theorem c5_precedence_table :
    (operators "or" = some (1, "left") ∧ operators "||" = some (1, "left") ∧
     operators "and" = some (2, "left") ∧ operators "&&" = some (2, "left") ∧
     operators "==" = some (3, "left") ∧ operators "!=" = some (3, "left") ∧
     operators "<" = some (4, "left") ∧ operators ">" = some (4, "left") ∧
     operators "<=" = some (4, "left") ∧ operators ">=" = some (4, "left") ∧
     operators "+" = some (5, "left") ∧ operators "-" = some (5, "left") ∧
     operators "*" = some (6, "left") ∧ operators "/" = some (6, "left") ∧
     operators "%" = some (6, "left") ∧ operators "not" = some (7, "right")) ∧
    ((toReversePolishNotation (NewExpression "a + b * c")).map ExpressionToken.value =
      ["a", "b", "c", "*", "+"]) ∧
    ((toReversePolishNotation (NewExpression "(a + b) * c")).map ExpressionToken.value =
      ["a", "b", "+", "c", "*"]) ∧
    ((toReversePolishNotation (NewExpression "a==1||b==2&&c==3")).map ExpressionToken.value =
      ["a", "1", "==", "b", "2", "==", "c", "3", "==", "&&", "||"]) ∧
    (renderChildren htmlTemplate isTestFns 30
        [("a", .vint 2), ("b", .vint 3), ("c", .vint 4)] []
        (createSyntaxTree (tokenize "\x7b\x7b a + b * c \x7d\x7d")).children = .ok "14") ∧
    (renderChildren htmlTemplate isTestFns 30
        [("a", .vint 2), ("b", .vint 4), ("c", .vint 3)] []
        (createSyntaxTree (tokenize "\x7b\x7b (a + b) * c \x7d\x7d")).children = .ok "18") ∧
    (renderChildren htmlTemplate isTestFns 30
        [("a", .vint 5), ("b", .vint 2), ("c", .vint 3)] []
        (createSyntaxTree (tokenize
          "\x7b% if a==1||b==2&&c==3 %\x7dT\x7b% else %\x7dF\x7b% endif %\x7d")).children =
      .ok "T") :=
  ⟨⟨rfl, rfl, rfl, rfl, rfl, rfl, rfl, rfl, rfl, rfl, rfl, rfl, rfl, rfl, rfl, rfl⟩,
   rfl, rfl, rfl, rfl, rfl, rfl⟩

/-- C6: `+` doubles as concatenation and never errors: when both
operands convert with `toNumber` the result is their numeric sum, and
the render of a variable tag summing two integers is the decimal
string of the sum; when either operand is non-numeric the result is
the concatenation of the two string representations; in both cases
`applyOperator "+"` returns `.ok`. -/
theorem c6_plus_sum_or_concat :
    (∀ (l r : Val) (a b : ℚ), toNumber l = some a → toNumber r = some b →
      applyOperator "+" l r = .ok (.vfloat (a + b))) ∧
    (∀ (l r : Val), toNumber l = none ∨ toNumber r = none →
      applyOperator "+" l r = .ok (.vstr (toString l ++ toString r))) ∧
    (∀ (l r : Val), ∃ v, applyOperator "+" l r = .ok v) ∧
    (∀ (a b : Int),
      renderVarNode { escape := "", loader := none } (TreeNode.mk "var" "a + b" [] none)
        [("a", .vint a), ("b", .vint b)] [] = .ok (intToString (a + b))) ∧
    (renderChildren htmlTemplate isTestFns 30
        [("a", .vstr "foo"), ("b", .vint 2)] []
        (createSyntaxTree (tokenize "\x7b\x7b a + b \x7d\x7d")).children = .ok "foo2") := by
  refine ⟨?_, ?_, ?_, ?_, rfl⟩
  · intro l r a b ha hb
    simp [applyOperator, ha, hb]
  · intro l r h
    rcases h with h | h
    · cases hr : toNumber r <;> simp [applyOperator, h, hr]
    · cases hl : toNumber l <;> simp [applyOperator, h, hl]
  · intro l r
    cases hl : toNumber l with
    | none =>
      refine ⟨.vstr (toString l ++ toString r), ?_⟩
      cases hr : toNumber r <;> simp [applyOperator, hl, hr]
    | some a =>
      cases hr : toNumber r with
      | none =>
        refine ⟨.vstr (toString l ++ toString r), ?_⟩
        simp [applyOperator, hl, hr]
      | some b =>
        refine ⟨.vfloat (a + b), ?_⟩
        simp [applyOperator, hl, hr]
  · intro a b
    have h : renderVarNode { escape := "", loader := none }
        (TreeNode.mk "var" "a + b" [] none) [("a", .vint a), ("b", .vint b)] [] =
        .ok (ratToString ((a : ℚ) + (b : ℚ))) := rfl
    have hcast : ((a : ℚ) + (b : ℚ)) = (((a + b : Int) : ℚ)) := by push_cast; ring
    have hr : ∀ n : Int, ratToString (n : ℚ) = intToString n := by
      intro n
      simp [ratToString, Rat.den_intCast, Rat.num_intCast, intToString]
    rw [h, hcast, hr]

theorem c6_plus_sum_or_concat_witness :
    (toNumber (Val.vint 1) = some ((1 : Int) : ℚ) ∧
     applyOperator "+" (.vint 1) (.vint 2) =
      .ok (.vfloat (((1 : Int) : ℚ) + ((2 : Int) : ℚ)))) ∧
    (toNumber (Val.vstr "foo") = none ∧
     applyOperator "+" (.vstr "foo") (.vint 2) =
      .ok (.vstr (toString (Val.vstr "foo") ++ toString (Val.vint 2)))) ∧
    renderVarNode { escape := "", loader := none } (TreeNode.mk "var" "a + b" [] none)
        [("a", .vint 3), ("b", .vint 4)] [] = .ok (intToString (3 + 4)) :=
  ⟨⟨rfl, c6_plus_sum_or_concat.1 (.vint 1) (.vint 2) _ _ rfl rfl⟩,
   ⟨rfl, c6_plus_sum_or_concat.2.1 (.vstr "foo") (.vint 2) (Or.inl rfl)⟩,
   c6_plus_sum_or_concat.2.2.2.1 3 4⟩

set_option maxHeartbeats 4000000 in
/-- C7: `defined`/`undefined` tests observe the sentinel instead of an
inline error: with the rewritten test-filter registry installed, an
`if` node testing `x is undefined` over any context lacking the key
`x` renders nothing but stores `true` (no inline diagnostic), the same
context makes `x is defined` store `false`, and a context holding `x`
with a nil value makes `x is defined` store `true`; two concrete
renders show the chain end to end. -/
theorem c7_defined_undefined_sentinel :
    (∀ (t : Template) (fuel : Nat) (data : ValMap) (v? : Option Bool),
      mapLookup data "x" = none →
      renderIfNode t isTestFns (fuel + 1) (TreeNode.mk "if" "x is undefined" [] v?) data =
        .ok ("", TreeNode.mk "if" "x is undefined" [] (some true))) ∧
    (∀ (t : Template) (fuel : Nat) (data : ValMap) (v? : Option Bool),
      mapLookup data "x" = none →
      renderIfNode t isTestFns fuel (TreeNode.mk "if" "x is defined" [] v?) data =
        .ok ("", TreeNode.mk "if" "x is defined" [] (some false))) ∧
    (∀ (t : Template) (fuel : Nat) (data : ValMap) (v? : Option Bool),
      mapLookup data "x" = some .vnil →
      renderIfNode t isTestFns (fuel + 1) (TreeNode.mk "if" "x is defined" [] v?) data =
        .ok ("", TreeNode.mk "if" "x is defined" [] (some true))) ∧
    (renderChildren htmlTemplate isTestFns 30 [] []
        (createSyntaxTree (tokenize
          "\x7b% if x is undefined %\x7dU\x7b% else %\x7dD\x7b% endif %\x7d")).children =
      .ok "U") ∧
    (renderChildren htmlTemplate isTestFns 30 [("x", .vnil)] []
        (createSyntaxTree (tokenize
          "\x7b% if x is defined %\x7dD\x7b% else %\x7dU\x7b% endif %\x7d")).children =
      .ok "D") := by
  have hev : ∀ (data : ValMap), Evaluate (NewExpression "x") data resolvePath =
      (match mapLookup data "x" with
       | some v => Except.ok v
       | none => Except.error "path `x` not found") := by
    intro data
    have h1 : Evaluate (NewExpression "x") data resolvePath =
        (match (match (match mapLookup data "x" with
                       | some v => resolveWalk [] v
                       | none => (Except.error "path `x` not found" : Except String Val)) with
                | .error e => (Except.error e : Except String (List Val))
                | .ok v => .ok [v]) with
         | .error e => (Except.error e : Except String Val)
         | .ok [v] => .ok v
         | .ok _ => .error "malformed expression") := rfl
    rw [h1]
    cases mapLookup data "x" <;> rfl
  refine ⟨?_, ?_, ?_, rfl, rfl⟩
  · intro t fuel data v? h
    rw [renderIfNode]
    simp only [TreeNode.expression,
      show processIsTests "x is undefined" = ("x", "__istest__(\x22undefined\x22)") from rfl,
      show explodeRespectingQuotes "|" "x" (-1) = ["x"] from rfl,
      List.headD, List.tail_cons, hev data, h]
    simp only [TreeNode.children, renderChildren]
    rfl
  · intro t fuel data v? h
    rw [renderIfNode]
    simp only [TreeNode.expression,
      show processIsTests "x is defined" = ("x", "__istest__(\x22defined\x22)") from rfl,
      show explodeRespectingQuotes "|" "x" (-1) = ["x"] from rfl,
      List.headD, List.tail_cons, hev data, h]
    rfl
  · intro t fuel data v? h
    rw [renderIfNode]
    simp only [TreeNode.expression,
      show processIsTests "x is defined" = ("x", "__istest__(\x22defined\x22)") from rfl,
      show explodeRespectingQuotes "|" "x" (-1) = ["x"] from rfl,
      List.headD, List.tail_cons, hev data, h]
    simp only [TreeNode.children, renderChildren]
    rfl

theorem c7_defined_undefined_sentinel_witness :
    (renderIfNode htmlTemplate isTestFns 1 (TreeNode.mk "if" "x is undefined" [] none) [] =
      .ok ("", TreeNode.mk "if" "x is undefined" [] (some true))) ∧
    (renderIfNode htmlTemplate isTestFns 0 (TreeNode.mk "if" "x is defined" [] none) [] =
      .ok ("", TreeNode.mk "if" "x is defined" [] (some false))) ∧
    (renderIfNode htmlTemplate isTestFns 1 (TreeNode.mk "if" "x is defined" [] none)
        [("x", .vnil)] =
      .ok ("", TreeNode.mk "if" "x is defined" [] (some true))) :=
  ⟨c7_defined_undefined_sentinel.1 htmlTemplate 0 [] none rfl,
   c7_defined_undefined_sentinel.2.1 htmlTemplate 0 [] none rfl,
   c7_defined_undefined_sentinel.2.2.1 htmlTemplate 0 [("x", .vnil)] none rfl⟩

/-- C9: for-loop scope isolation: every iteration renders the body
against a fresh shallow copy of the context with the loop variable(s)
overlaid — the loop variable resolves to the iteration's item, every
other key resolves as in the caller's context (which the model's
`forLoopData` never modifies), a bare copy preserves all lookups, and
concretely a loop variable is gone (inline path-not-found diagnostic)
after `\x7b% endfor %\x7d` while outer variables remain visible. -/
theorem c9_for_scope_isolation :
    (∀ (data : ValMap) (hasKey : Bool) (key varName : String) (keyVal item : Val),
      mapLookup (forLoopData data hasKey key varName keyVal item) varName = some item) ∧
    (∀ (data : ValMap) (hasKey : Bool) (key varName : String) (keyVal item : Val)
      (k : String), ¬k = varName → ¬k = key → (data.map Prod.fst).Nodup →
      mapLookup (forLoopData data hasKey key varName keyVal item) k = mapLookup data k) ∧
    (∀ (data : ValMap) (k : String), (data.map Prod.fst).Nodup →
      mapLookup (copyMap data) k = mapLookup data k) ∧
    (renderChildren htmlTemplate isTestFns 30 [("xs", .vlist [.vint 1])] []
        (createSyntaxTree (tokenize
          "\x7b% for x in xs %\x7d\x7b\x7bx\x7d\x7d\x7b% endfor %\x7d\x7b\x7bx\x7d\x7d")).children =
      .ok "1\x7b\x7bx!!path `x` not found\x7d\x7d") ∧
    (renderChildren htmlTemplate isTestFns 30
        [("xs", .vlist [.vint 1, .vint 2]), ("y", .vstr "ok")] []
        (createSyntaxTree (tokenize
          "\x7b% for x in xs %\x7d[\x7b\x7bx\x7d\x7d]\x7b% endfor %\x7d\x7b\x7by\x7d\x7d")).children =
      .ok "[1][2]ok") := by
  refine ⟨?_, ?_, ?_, rfl, rfl⟩
  · intro data hasKey key varName keyVal item
    cases hasKey <;> simp [forLoopData, mapLookup_insert_self]
  · intro data hasKey key varName keyVal item k hk1 hk2 hnd
    cases hasKey
    · simp [forLoopData, mapLookup_insert_other _ _ _ _ hk1, mapLookup_copyMap _ _ hnd]
    · simp [forLoopData, mapLookup_insert_other _ _ _ _ hk1,
        mapLookup_insert_other _ _ _ _ hk2, mapLookup_copyMap _ _ hnd]
  · exact fun data k hnd => mapLookup_copyMap data k hnd

theorem c9_for_scope_isolation_witness :
    (mapLookup (forLoopData [("y", .vstr "ok")] false "" "x" (.vint 0) (.vint 1)) "x" =
      some (.vint 1)) ∧
    (mapLookup (forLoopData [("y", .vstr "ok")] false "" "x" (.vint 0) (.vint 1)) "y" =
      mapLookup [("y", Val.vstr "ok")] "y") ∧
    (mapLookup (copyMap [("y", .vstr "ok")]) "y" = mapLookup [("y", Val.vstr "ok")] "y") :=
  ⟨c9_for_scope_isolation.1 [("y", .vstr "ok")] false "" "x" (.vint 0) (.vint 1),
   c9_for_scope_isolation.2.1 [("y", .vstr "ok")] false "" "x" (.vint 0) (.vint 1) "y"
     (by decide) (by decide) (by simp),
   c9_for_scope_isolation.2.2.1 [("y", .vstr "ok")] "y" (by simp)⟩

/-- C3: the current engine's builder classifies tags by leading
keyword into the full node-kind set (modelled from spec section 4.2,
the engine file itself not being among the sources): bare `endblock`
is a pop signal, `block `/`extends `/`include ` prefixes give block,
extends and include nodes, any token matching none of the listed
keywords is a variable node, and the builder nests a
`block`...`endblock` region as children of the block node while
`extends`/`include` stay leaves. -/
theorem c3_builder_classifies_block_kinds :
    (classifyTokenX "endblock" = ("endblock", "")) ∧
    (classifyTokenX "block header" = ("block", "header")) ∧
    (classifyTokenX "extends 'base.html'" = ("extends", "'base.html'")) ∧
    (classifyTokenX "include 'x.html'" = ("include", "'x.html'")) ∧
    (∀ token : String,
      ¬token = "endif" → ¬token = "endfor" → ¬token = "endblock" → ¬token = "else" →
      ¬strStartsWith token "elseif " = true → ¬strStartsWith token "if " = true →
      ¬strStartsWith token "for " = true → ¬strStartsWith token "block " = true →
      ¬strStartsWith token "extends " = true → ¬strStartsWith token "include " = true →
      classifyTokenX token = ("var", token)) ∧
    (buildSyntaxTree ["", "@block header", "H", "@endblock", ""] =
      TreeNode.mk "root" ""
        [TreeNode.mk "lit" "" [] none,
         TreeNode.mk "block" "header" [TreeNode.mk "lit" "H" [] none] none,
         TreeNode.mk "lit" "" [] none] none) ∧
    (buildSyntaxTree ["", "@extends 'base.html'", ""] =
      TreeNode.mk "root" ""
        [TreeNode.mk "lit" "" [] none,
         TreeNode.mk "extends" "'base.html'" [] none,
         TreeNode.mk "lit" "" [] none] none) ∧
    (buildSyntaxTree ["", "@include 'x.html'", ""] =
      TreeNode.mk "root" ""
        [TreeNode.mk "lit" "" [] none,
         TreeNode.mk "include" "'x.html'" [] none,
         TreeNode.mk "lit" "" [] none] none) := by
  refine ⟨rfl, rfl, rfl, rfl, ?_, rfl, rfl, rfl⟩
  intro token h1 h2 h3 h4 h5 h6 h7 h8 h9 h10
  simp only [classifyTokenX]
  rw [if_neg h1, if_neg h2, if_neg h3, if_neg h4, if_neg h5, if_neg h6, if_neg h7,
      if_neg h8, if_neg h9, if_neg h10]

theorem c3_builder_classifies_block_kinds_witness :
    classifyTokenX "user.name" = ("var", "user.name") :=
  c3_builder_classifies_block_kinds.2.2.2.2.1 "user.name"
    (by decide) (by decide) (by decide) (by decide) (by decide) (by decide)
    (by decide) (by decide) (by decide) (by decide)

/-- Newline-free inputs are exactly the ones `splitLastNewline` rejects. -/
theorem splitLastNewline_eq_none (cs : List Char) (h : '\n' ∉ cs) :
    splitLastNewline cs = none := by
  induction cs with
  | nil => rfl
  | cons c rest ih =>
    simp only [List.mem_cons] at h
    push_neg at h
    have hc : ¬c = '\n' := fun hh => h.1 hh.symm
    simp [splitLastNewline, ih h.2, hc]

/-- Splitting after the last newline of `pre ++ '\n' :: ws` when `ws`
holds no newline. -/
theorem splitLastNewline_append (pre ws : List Char) (h : '\n' ∉ ws) :
    splitLastNewline (pre ++ '\n' :: ws) = some (pre ++ ['\n'], ws) := by
  induction pre with
  | nil => simp [splitLastNewline, splitLastNewline_eq_none ws h]
  | cons c p ih => simp [splitLastNewline, ih]

/-- C4 (amended): whitespace elision of a standalone control or
comment tag happens exactly when the line's leading whitespace is
whitespace to the code's own test: with the line's newline still in
the pending literal, only the whitespace after that newline matters
(it is stripped, the part up to and including the newline kept),
whatever the scan position; with no newline pending, the tag is
standalone only when the pending literal is empty or is whitespace
whose length equals the scan position — i.e. no earlier tag was
consumed on the line; a tag with trailing content keeps its line; a
variable tag never elides; and a standalone tag's trailing newline is
consumed (comment lines vanish entirely, the literal continuing
across them). -/
theorem c4_whitespace_control_amended :
    (∀ (pre ws : List Char) (i : Nat), '\n' ∉ ws → isAllSpace ws = true →
      standaloneInfo (pre ++ '\n' :: ws) i = (true, pre ++ ['\n'])) ∧
    (∀ (ws : List Char), '\n' ∉ ws → isAllSpace ws = true →
      standaloneInfo ws ws.length = (true, [])) ∧
    (∀ (ws : List Char) (i : Nat), '\n' ∉ ws → ws ≠ [] → i ≠ ws.length →
      (standaloneInfo ws i).1 = false) ∧
    (tokenize "A\n  \x7b% if a %\x7d\nB" = ["A\n", "@if a", "B"]) ∧
    (tokenize "  \x7b% if a %\x7d\nB" = ["", "@if a", "B"]) ∧
    (tokenize "\x7b% if a %\x7d x\nB" = ["", "@if a", " x\nB"]) ∧
    (tokenize "  \x7b\x7ba\x7d\x7d\nB" = ["  ", "a", "\nB"]) ∧
    (tokenize "A\n  \x7b# c #\x7d\nB" = ["A\nB"]) := by
  refine ⟨?_, ?_, ?_, rfl, rfl, rfl, rfl, rfl⟩
  · intro pre ws i h1 h2
    simp [standaloneInfo, splitLastNewline_append pre ws h1, h2]
  · intro ws h1 h2
    simp [standaloneInfo, splitLastNewline_eq_none ws h1, h2]
  · intro ws i h1 h2 h3
    simp [standaloneInfo, splitLastNewline_eq_none ws h1, h2, h3]

theorem c4_whitespace_control_amended_witness :
    (standaloneInfo ("A".data ++ '\n' :: "  ".data) 7 = (true, "A".data ++ ['\n'])) ∧
    (standaloneInfo "  ".data "  ".data.length = (true, [])) ∧
    ((standaloneInfo "  ".data 13).1 = false) :=
  ⟨c4_whitespace_control_amended.1 "A".data "  ".data 7 (by decide) (by decide),
   c4_whitespace_control_amended.2.1 "  ".data (by decide) (by decide),
   c4_whitespace_control_amended.2.2.1 "  ".data 13 (by decide) (by decide) (by decide)⟩

/-- C4 (counterexample to the claim as stated): in
`\x7b% if a %\x7d\n  \x7b% endif %\x7d\nX` the `endif` tag is alone on
its line — only the whitespace `"  "` separates it from the previous
newline — yet its leading whitespace is kept and its trailing newline
not consumed (the previous standalone tag consumed the newline, so the
pending literal holds no newline and the scan position differs from
the literal's length), and the render with a true condition is
`"  \nX"`, not the `"X"` the claim predicts. -/
theorem c4_whitespace_control_counterexample :
    tokenize "\x7b% if a %\x7d\n  \x7b% endif %\x7d\nX" =
      ["", "@if a", "  ", "@endif", "\nX"] ∧
    renderChildren htmlTemplate isTestFns 30 [("a", .vbool true)] []
      (createSyntaxTree (tokenize "\x7b% if a %\x7d\n  \x7b% endif %\x7d\nX")).children =
      .ok "  \nX" ∧
    ¬("  \nX" = "X") :=
  ⟨rfl, rfl, by decide⟩

end TQ
